import Mathlib

/-!
# Verification of the shared simulation core of `fps-multiplayer-three`

This file gives a shallow embedding, over the rationals, of the data model and
the operations of the repository's simulation core: the `Vector3`/AABB
primitives, the collision engine (`shared/physics/collision-system.js`), the
movement integrator (`shared/physics/movement-system.js`), the player damage
model (`shared/entities/player.js`), projectile range tracking
(`shared/entities/projectile.js`), the weapon fire gate
(`shared/gameplay/weapons/weapon.js`), server-side input application
(`server/src/gameplay/server-player.js`) and client-side reconciliation
(`client/src/gameplay/client-player.js`), followed by theorems settling the
stated properties of those operations.

Conventions of the embedding:
* JavaScript numbers are modelled as rationals; every arithmetic operation the
  embedded code performs (add, subtract, multiply, divide, compare, `Math.min`,
  `Math.max`, `Math.round`, `Math.sign`) is exact on rationals.
* The only places the source takes a square root are threshold tests of the
  form `v.magnitude() < c` with `c > 0`, and normalisations; threshold tests
  are embedded sqrt-free as the equivalent `v.magnitudeSq() < c^2`, and the
  transcendental kernels (`Math.cos`, `Math.sin`, `Math.exp`, `Math.sqrt`)
  that feed only into velocity smoothing are abstracted as an explicit
  environment of rational-valued functions.
* Mutation becomes explicit state passing: each method is a function from the
  receiver's state (and its arguments) to the updated state.
-/

namespace FpsCore

/-- `shared/physics/vector.js` — `Vector3`: an `(x, y, z)` triple. -/
structure Vec3 where
  x : ℚ
  y : ℚ
  z : ℚ
deriving DecidableEq, Repr

/-- `Vector3` constructor default: `new Vector3()` is `(0, 0, 0)`. -/
def Vec3.zero : Vec3 := ⟨0, 0, 0⟩

/-- `Vector3.add` (componentwise). -/
def Vec3.add (a b : Vec3) : Vec3 := ⟨a.x + b.x, a.y + b.y, a.z + b.z⟩

/-- `Vector3.subtract` (componentwise). -/
def Vec3.sub (a b : Vec3) : Vec3 := ⟨a.x - b.x, a.y - b.y, a.z - b.z⟩

/-- `Vector3.multiplyScalar`. -/
def Vec3.smul (a : Vec3) (s : ℚ) : Vec3 := ⟨a.x * s, a.y * s, a.z * s⟩

/-- `Vector3.magnitudeSq`: squared length. -/
def Vec3.magnitudeSq (a : Vec3) : ℚ := a.x * a.x + a.y * a.y + a.z * a.z

/-- `Vector3.distanceToSq`: squared distance between two vectors. -/
def Vec3.distanceToSq (a b : Vec3) : ℚ :=
  (a.x - b.x) * (a.x - b.x) + (a.y - b.y) * (a.y - b.y) + (a.z - b.z) * (a.z - b.z)

/-- `Vector3.lerp(v, alpha)`: linear interpolation toward `v`; the source
clamps `alpha` into `[0, 1]` before interpolating. -/
def Vec3.lerpTo (a v : Vec3) (alpha : ℚ) : Vec3 :=
  let t := max 0 (min 1 alpha)
  ⟨a.x + (v.x - a.x) * t, a.y + (v.y - a.y) * t, a.z + (v.z - a.z) * t⟩

/-- An axis-aligned bounding box `{min, max}`. -/
structure AABB where
  min : Vec3
  max : Vec3
deriving DecidableEq, Repr

/-- `shared/utils/math-utils.js` — `clamp(value, min, max)`:
`Math.max(min, Math.min(value, max))`. -/
def clamp (value lo hi : ℚ) : ℚ := max lo (min value hi)

/-- JavaScript's `Math.round`: round half toward positive infinity,
`⌊x + 1/2⌋`. -/
def jsRound (q : ℚ) : ℚ := (⌊q + 1/2⌋ : ℤ)

/-- JavaScript's `Math.sign` restricted to rationals: `-1`, `0` or `1`. -/
def jsSign (q : ℚ) : ℚ := if q < 0 then -1 else if q > 0 then 1 else 0

/-! ## Combat constants — `shared/constants/combat-settings.js` -/

def DAMAGE_MULTIPLIER_HEAD : ℚ := 3
def DAMAGE_MULTIPLIER_TORSO : ℚ := 1
def DAMAGE_MULTIPLIER_ARMS : ℚ := 8/10
def DAMAGE_MULTIPLIER_LEGS : ℚ := 6/10
def DAMAGE_MULTIPLIER_DEFAULT : ℚ := 1

/-! ## World constants — `shared/constants/game-settings.js`,
`shared/base/collidable.js` -/

def GRAVITY : ℚ := 20
def PLAYER_HEIGHT : ℚ := 18/10
def PLAYER_WIDTH : ℚ := 8/10
def PLAYER_DEPTH : ℚ := 8/10
def PLAYER_ACCELERATION : ℚ := 18
def PLAYER_FRICTION : ℚ := 10
def MIN_SPEED_THRESHOLD : ℚ := 1/100
def BASE_PLAYER_SPEED : ℚ := 7

/-! ## Player damage model — `shared/entities/player.js` -/

/-- The state of a `Player` touched by `takeDamage`/`heal`/`respawn`:
`health`, `maxHealth`, `score` and the alive flag. -/
structure PlayerHealthState where
  health : ℚ
  maxHealth : ℚ
  score : ℚ
  isAlive : Bool
deriving DecidableEq, Repr

/-- The `Player` constructor: `health = maxHealth`, `score = 0`,
`isAlive = true`. -/
def playerInit (maxHealth : ℚ) : PlayerHealthState :=
  { health := maxHealth, maxHealth := maxHealth, score := 0, isAlive := true }

/-- JavaScript's `toLowerCase` on the hitbox-key strings: lowercase every
character. -/
def jsToLower (s : String) : String := ⟨s.data.map Char.toLower⟩

/-- The damage-multiplier switch inside `Player.takeDamage`: the struck
hitbox key is lowercased and matched against `head`/`torso`/`arms`/`legs`,
any other key getting the default multiplier. -/
def regionMultiplier (hitboxKey : String) : ℚ :=
  let k := jsToLower hitboxKey
  if k = "head" then DAMAGE_MULTIPLIER_HEAD
  else if k = "torso" then DAMAGE_MULTIPLIER_TORSO
  else if k = "arms" then DAMAGE_MULTIPLIER_ARMS
  else if k = "legs" then DAMAGE_MULTIPLIER_LEGS
  else DAMAGE_MULTIPLIER_DEFAULT

/-- `Player.takeDamage(baseAmount, hitboxKey)` (the hitbox-region version):
no-op when dead or `baseAmount <= 0`; otherwise subtracts
`Math.round(baseAmount * multiplier)` from `health`, clamps into
`[0, maxHealth]`, and clears `isAlive` exactly once when the clamped health
reaches `0`. -/
def takeDamage (p : PlayerHealthState) (baseAmount : ℚ) (hitboxKey : String) : PlayerHealthState :=
  if ¬p.isAlive ∨ baseAmount ≤ 0 then p
  else
    let finalAmount := jsRound (baseAmount * regionMultiplier hitboxKey)
    let health' := clamp (p.health - finalAmount) 0 p.maxHealth
    if health' ≤ 0 then { p with health := health', isAlive := false }
    else { p with health := health' }

/-- `Player.heal(amount)`: no-op when dead or `amount <= 0`; otherwise adds
`amount` to `health` clamped into `[0, maxHealth]`. -/
def heal (p : PlayerHealthState) (amount : ℚ) : PlayerHealthState :=
  if ¬p.isAlive ∨ amount ≤ 0 then p
  else { p with health := clamp (p.health + amount) 0 p.maxHealth }

/-! ## Collision engine — `shared/physics/collision-system.js` -/

/-- `CollisionSystem.checkAABBOverlap(boxA, boxB)`: true unless the boxes are
separated on at least one axis; touching faces (`<=`/`>=`) count as
non-overlapping. -/
def checkAABBOverlap (boxA boxB : AABB) : Bool :=
  decide (¬(boxA.max.x ≤ boxB.min.x ∨ boxA.min.x ≥ boxB.max.x ∨
            boxA.max.y ≤ boxB.min.y ∨ boxA.min.y ≥ boxB.max.y ∨
            boxA.max.z ≤ boxB.min.z ∨ boxA.min.z ≥ boxB.max.z))

/-- The per-axis slab epsilon of `checkRayAABBIntersection` (`EPSILON = 1e-6`). -/
def SLAB_EPSILON : ℚ := 1/1000000

/-- One iteration of the slab-test loop of
`CollisionSystem.checkRayAABBIntersection`, carrying the running
`(tmin, tmax)` interval.  A near-zero direction component is the
axis-parallel case: reject when the origin is outside the slab, otherwise the
axis is skipped.  Otherwise the two slab times are sorted (the source's
`if (t1 > t2) [t1, t2] = [t2, t1]` computes their min and max), `tmin` takes
the later entry, `tmax` the earlier exit, and an inverted interval rejects. -/
def slabAxis (dirAxis originAxis minAxis maxAxis : ℚ) (acc : ℚ × ℚ) : Option (ℚ × ℚ) :=
  if |dirAxis| < SLAB_EPSILON then
    if originAxis < minAxis ∨ originAxis > maxAxis then none
    else some acc
  else
    let invDir := 1 / dirAxis
    let t1 := min ((minAxis - originAxis) * invDir) ((maxAxis - originAxis) * invDir)
    let t2 := max ((minAxis - originAxis) * invDir) ((maxAxis - originAxis) * invDir)
    let tmin := max acc.1 t1
    let tmax := min acc.2 t2
    if tmin > tmax then none else some (tmin, tmax)

/-- `CollisionSystem.checkRayAABBIntersection(rayOrigin, rayDirection,
maxDistance, aabb)`.  `t` is the fraction of `rayDirection` travelled, the
segment being `t ∈ [0, 1]`.  A direction of squared magnitude below `1e-5`
degenerates to a point-vs-AABB overlap check returning `t = 0` on overlap.
The source's `maxDistance` argument is never read by the function body and is
omitted here.  The axes run in `x`, `y`, `z` order starting from
`(tmin, tmax) = (0, 1)`, and the surviving interval returns its `tmin` when
the final guard `tmin <= 1 && tmax >= 0 && tmin >= 0` holds. -/
def checkRayAABBIntersection (rayOrigin rayDirection : Vec3) (aabb : AABB) : Option ℚ :=
  if rayDirection.magnitudeSq < 1/100000 then
    if checkAABBOverlap ⟨rayOrigin, rayOrigin⟩ aabb then some 0 else none
  else
    match slabAxis rayDirection.x rayOrigin.x aabb.min.x aabb.max.x (0, 1) with
    | none => none
    | some acc1 =>
      match slabAxis rayDirection.y rayOrigin.y aabb.min.y aabb.max.y acc1 with
      | none => none
      | some acc2 =>
        match slabAxis rayDirection.z rayOrigin.z aabb.min.z aabb.max.z acc2 with
        | none => none
        | some acc3 =>
          if acc3.1 ≤ 1 ∧ acc3.2 ≥ 0 ∧ acc3.1 ≥ 0 then some acc3.1 else none

/-- Entry time of one non-parallel slab axis: the earlier of the two
plane-crossing fractions. -/
def axisEntryTime (dirAxis originAxis minAxis maxAxis : ℚ) : ℚ :=
  min ((minAxis - originAxis) / dirAxis) ((maxAxis - originAxis) / dirAxis)

/-- Exit time of one non-parallel slab axis: the later of the two
plane-crossing fractions. -/
def axisExitTime (dirAxis originAxis minAxis maxAxis : ℚ) : ℚ :=
  max ((minAxis - originAxis) / dirAxis) ((maxAxis - originAxis) / dirAxis)

/-- One axis of a slab test, as the quadruple (direction component, origin
component, slab lower bound, slab upper bound). -/
abbrev AxisData : Type := ℚ × ℚ × ℚ × ℚ

/-- The three axes of a ray-vs-AABB slab test in `x`, `y`, `z` order. -/
def axesOf (rayOrigin rayDirection : Vec3) (aabb : AABB) : List AxisData :=
  [(rayDirection.x, rayOrigin.x, aabb.min.x, aabb.max.x),
   (rayDirection.y, rayOrigin.y, aabb.min.y, aabb.max.y),
   (rayDirection.z, rayOrigin.z, aabb.min.z, aabb.max.z)]

/-- The latest entry time over the non-parallel axes, starting from a given
entry time (the segment's own start `t = 0` for a full slab test). -/
def slabEntryFold (axes : List AxisData) (t0 : ℚ) : ℚ :=
  axes.foldl (fun t a =>
    if |a.1| < SLAB_EPSILON then t
    else max t (axisEntryTime a.1 a.2.1 a.2.2.1 a.2.2.2)) t0

/-- The earliest exit time over the non-parallel axes, starting from a given
exit time (the segment's own end `t = 1` for a full slab test). -/
def slabExitFold (axes : List AxisData) (t0 : ℚ) : ℚ :=
  axes.foldl (fun t a =>
    if |a.1| < SLAB_EPSILON then t
    else min t (axisExitTime a.1 a.2.1 a.2.2.1 a.2.2.2)) t0

/-- The slab test as the spec describes it, for comparison with
`checkRayAABBIntersection`: over the non-parallel axes, the entry fraction is
the maximum of the per-axis entry times and the exit fraction the minimum of
the per-axis exit times, the segment's own bounds `t = 0` and `t = 1`
participating as entry and exit times of the interval `[0, 1]`; the result is
the entry fraction (that of the last entering axis, the first exiting axis
bounding it), or none when the entry/exit interval is empty. -/
def slabSpecEntry (rayOrigin rayDirection : Vec3) (aabb : AABB) : Option ℚ :=
  let tEntry := slabEntryFold (axesOf rayOrigin rayDirection aabb) 0
  let tExit := slabExitFold (axesOf rayOrigin rayDirection aabb) 1
  if tEntry ≤ tExit then some tEntry else none

/-- The slab loop of `checkRayAABBIntersection` over a list of axes, for the
loop-invariant proofs: thread the `(tmin, tmax)` accumulator through
`slabAxis`, rejecting as soon as one axis rejects. -/
def slabChain : List AxisData → ℚ × ℚ → Option (ℚ × ℚ)
  | [], acc => some acc
  | a :: rest, acc =>
    match slabAxis a.1 a.2.1 a.2.2.1 a.2.2.2 acc with
    | none => none
    | some acc' => slabChain rest acc'

/-- The fallback half-extent used by `resolveWorldBoundsCollision` when a
dimension is falsy (`entity.width || 0.1`): in JavaScript a dimension of `0`
also selects the fallback. -/
def orDefault (v d : ℚ) : ℚ := if v = 0 then d else v

/-- The dimensions an entity exposes to the collision engine. -/
structure EntityDims where
  width : ℚ
  height : ℚ
  depth : ℚ
deriving DecidableEq, Repr

/-- `CollisionSystem.resolveWorldBoundsCollision(entity, potentialPosition,
mapBounds)`: clamps the entity's AABB (feet at `potentialPosition.y`,
horizontally centred) into the map bounds per axis, zeroing the velocity
component that pressed into the clamped face.  Returns the final position
together with the (possibly mutated) velocity. -/
def resolveWorldBoundsCollision (dims : EntityDims) (velocity : Vec3)
    (potentialPosition : Vec3) (mapBounds : AABB) : Vec3 × Vec3 :=
  let entityHalfWidth := orDefault dims.width (1/10) / 2
  let entityHalfDepth := orDefault dims.depth (orDefault dims.width (1/10)) / 2
  let entityHeight := orDefault dims.height (1/10)
  let aabbMin : Vec3 := ⟨potentialPosition.x - entityHalfWidth, potentialPosition.y,
                         potentialPosition.z - entityHalfDepth⟩
  let aabbMax : Vec3 := ⟨potentialPosition.x + entityHalfWidth,
                         potentialPosition.y + entityHeight,
                         potentialPosition.z + entityHalfDepth⟩
  let fx :=
    if aabbMin.x < mapBounds.min.x then mapBounds.min.x + entityHalfWidth
    else if aabbMax.x > mapBounds.max.x then mapBounds.max.x - entityHalfWidth
    else potentialPosition.x
  let vx :=
    if aabbMin.x < mapBounds.min.x then (if velocity.x < 0 then 0 else velocity.x)
    else if aabbMax.x > mapBounds.max.x then (if velocity.x > 0 then 0 else velocity.x)
    else velocity.x
  let fy :=
    if aabbMin.y < mapBounds.min.y then mapBounds.min.y
    else if aabbMax.y > mapBounds.max.y then mapBounds.max.y - entityHeight
    else potentialPosition.y
  let vy :=
    if aabbMin.y < mapBounds.min.y then (if velocity.y < 0 then 0 else velocity.y)
    else if aabbMax.y > mapBounds.max.y then (if velocity.y > 0 then 0 else velocity.y)
    else velocity.y
  let fz :=
    if aabbMin.z < mapBounds.min.z then mapBounds.min.z + entityHalfDepth
    else if aabbMax.z > mapBounds.max.z then mapBounds.max.z - entityHalfDepth
    else potentialPosition.z
  let vz :=
    if aabbMin.z < mapBounds.min.z then (if velocity.z < 0 then 0 else velocity.z)
    else if aabbMax.z > mapBounds.max.z then (if velocity.z > 0 then 0 else velocity.z)
    else velocity.z
  (⟨fx, fy, fz⟩, ⟨vx, vy, vz⟩)

/-- A static obstacle `{position, size, type}` of the map collaborator. -/
structure Obstacle where
  position : Vec3
  size : Vec3
  type : String
deriving DecidableEq, Repr

/-- The obstacle AABB as both swept tests and the penetration resolver build
it: horizontally centred on `position`, base at `position.y`, top at
`position.y + size.y`. -/
def obstacleAABB (obstacle : Obstacle) : AABB :=
  let obsHalfX := obstacle.size.x / 2
  let obsHalfZ := obstacle.size.z / 2
  { min := obstacle.position.add ⟨-obsHalfX, 0, -obsHalfZ⟩,
    max := obstacle.position.add ⟨obsHalfX, obstacle.size.y, obsHalfZ⟩ }

/-- The loop body of `checkProjectileHitStaticObstacleRaycast`: raycast one
obstacle's AABB and keep the hit when `t >= 0` and `t` beats the closest hit
so far. -/
def staticScanStep (projectilePreviousPos projectileDeltaMove : Vec3)
    (closestHit : Option (Obstacle × ℚ)) (obstacle : Obstacle) : Option (Obstacle × ℚ) :=
  match checkRayAABBIntersection projectilePreviousPos projectileDeltaMove
      (obstacleAABB obstacle) with
  | none => closestHit
  | some tHit =>
    if 0 ≤ tHit ∧ (match closestHit with
                   | none => true
                   | some prev => decide (tHit < prev.2)) = true then
      some (obstacle, tHit)
    else closestHit

/-- `CollisionSystem.checkProjectileHitStaticObstacleRaycast(prevPos,
deltaMove, obstacles)`: rejects insignificant movement
(`deltaMove.magnitude() < 1e-4`, embedded sqrt-free as
`magnitudeSq < 1e-8`), then keeps the obstacle hit of globally smallest
`t >= 0` across the list. -/
def checkProjectileHitStaticObstacleRaycast (projectilePreviousPos projectileDeltaMove : Vec3)
    (obstacles : List Obstacle) : Option (Obstacle × ℚ) :=
  if projectileDeltaMove.magnitudeSq < 1/100000000 then none
  else obstacles.foldl (staticScanStep projectilePreviousPos projectileDeltaMove) none

/-- A player as seen by the movement/collision pass: identity, position and
the health fields `takeDamage` touches. -/
structure WorldPlayer where
  id : String
  position : Vec3
  health : ℚ
  maxHealth : ℚ
  score : ℚ
  isAlive : Bool
deriving DecidableEq, Repr

/-- `Player.takeDamage` lifted to a `WorldPlayer`. -/
def worldTakeDamage (w : WorldPlayer) (baseAmount : ℚ) (hitboxKey : String) : WorldPlayer :=
  let h := takeDamage ⟨w.health, w.maxHealth, w.score, w.isAlive⟩ baseAmount hitboxKey
  { w with health := h.health, isAlive := h.isAlive }

/-- `Player._calculateHitboxes(pos)`: the head, torso and legs AABBs derived
from the base (feet) position and the fixed body proportions, in the
enumeration order of the source object literal. -/
def calculateHitboxes (pos : Vec3) : List (String × AABB) :=
  let epsilon : ℚ := 2/100
  let headSize := PLAYER_WIDTH * (7/10)
  let torsoHeight := PLAYER_HEIGHT * (45/100)
  let torsoWidth := PLAYER_WIDTH
  let torsoDepth := PLAYER_DEPTH * (8/10)
  let legHeight := PLAYER_HEIGHT * (4/10)
  let legWidth := PLAYER_WIDTH * (4/10)
  let legDepth := PLAYER_DEPTH * (4/10)
  let legTopY := pos.y + legHeight
  let torsoTopY := legTopY + torsoHeight
  let headCenterY := torsoTopY + headSize / 2
  let headCenter : Vec3 := ⟨pos.x, headCenterY, pos.z⟩
  let headHalf : Vec3 := ⟨headSize / 2 + epsilon, headSize / 2 + epsilon, headSize / 2 + epsilon⟩
  let torsoCenter : Vec3 := ⟨pos.x, legTopY + torsoHeight / 2, pos.z⟩
  let torsoHalf : Vec3 := ⟨torsoWidth / 2 + epsilon, torsoHeight / 2 + epsilon, torsoDepth / 2 + epsilon⟩
  let legCenter : Vec3 := ⟨pos.x, pos.y + legHeight / 2, pos.z⟩
  let legHalf : Vec3 := ⟨legWidth / 2 + epsilon, legHeight / 2 + epsilon, legDepth / 2 + epsilon⟩
  [("head", ⟨headCenter.sub headHalf, headCenter.add headHalf⟩),
   ("torso", ⟨torsoCenter.sub torsoHalf, torsoCenter.add torsoHalf⟩),
   ("legs", ⟨legCenter.sub legHalf, legCenter.add legHalf⟩)]

/-- The per-hitbox loop body of `checkProjectileHitRaycast`: raycast one
region box of the target at list index `idx` and keep the hit when `t >= 0`
beats the closest hit so far. -/
def hitboxScanStep (projectilePreviousPos projectileDeltaMove : Vec3) (idx : ℕ)
    (acc : Option (ℕ × String × ℚ)) (keyedBox : String × AABB) : Option (ℕ × String × ℚ) :=
  match checkRayAABBIntersection projectilePreviousPos projectileDeltaMove keyedBox.2 with
  | none => acc
  | some tHit =>
    if 0 ≤ tHit ∧ (match acc with
                   | none => true
                   | some prev => decide (tHit < prev.2.2)) = true then
      some (idx, keyedBox.1, tHit)
    else acc

/-- The per-target loop body of `checkProjectileHitRaycast`: skip the firing
owner and dead targets, else test every per-region hitbox. -/
def targetScanStep (projectileOwnerId : String) (projectilePreviousPos projectileDeltaMove : Vec3)
    (closestHitResult : Option (ℕ × String × ℚ)) (pair : ℕ × WorldPlayer) :
    Option (ℕ × String × ℚ) :=
  let idx := pair.1
  let target := pair.2
  if target.id = projectileOwnerId ∨ ¬target.isAlive then closestHitResult
  else
    (calculateHitboxes target.position).foldl
      (hitboxScanStep projectilePreviousPos projectileDeltaMove idx) closestHitResult

/-- `CollisionSystem.checkProjectileHitRaycast(projectile, prevPos, deltaMove,
targets)`: none for an already-removed projectile or insignificant movement
(`magnitude < 1e-4`, sqrt-free as `magnitudeSq < 1e-8`); otherwise scans the
targets, skipping the firing owner and dead targets, testing every per-region
hitbox and keeping the globally smallest `t >= 0`.  The struck target is
identified by its index in the target list, with the struck hitbox key and
the impact fraction. -/
def checkProjectileHitRaycast (projectileOwnerId : String) (projectileMarkForRemoval : Bool)
    (projectilePreviousPos projectileDeltaMove : Vec3) (targets : List WorldPlayer) :
    Option (ℕ × String × ℚ) :=
  if projectileMarkForRemoval then none
  else if projectileDeltaMove.magnitudeSq < 1/100000000 then none
  else
    (targets.enum).foldl
      (targetScanStep projectileOwnerId projectilePreviousPos projectileDeltaMove) none

/-- The state carried through one pass of the static-obstacle resolver:
adjusted position, the incrementally shifted entity AABB, the velocity, and
whether any overlap occurred this pass. -/
structure StaticPassState where
  adjustedPosition : Vec3
  entityAABB : AABB
  velocity : Vec3
  collisionOccurred : Bool

/-- Resolution of one overlapping obstacle inside
`CollisionSystem.resolveStaticObstacleCollision`: push out along the axis of
least overlap by `overlap + 1e-3` away from the obstacle's centre, zero the
velocity component when it opposed the push, and shift the working AABB. -/
def resolveOneObstacle (st : StaticPassState) (obstacle : Obstacle) : StaticPassState :=
  let obstacleBox := obstacleAABB obstacle
  if checkAABBOverlap st.entityAABB obstacleBox then
    let eps : ℚ := 1/1000
    let a := st.entityAABB
    let overlapX := min a.max.x obstacleBox.max.x - max a.min.x obstacleBox.min.x
    let overlapY := min a.max.y obstacleBox.max.y - max a.min.y obstacleBox.min.y
    let overlapZ := min a.max.z obstacleBox.max.z - max a.min.z obstacleBox.min.z
    if overlapX ≤ overlapY ∧ overlapX ≤ overlapZ then
      let entityCenterX := a.min.x + (a.max.x - a.min.x) / 2
      let obstacleCenterX := obstacleBox.min.x + (obstacleBox.max.x - obstacleBox.min.x) / 2
      let push := if entityCenterX < obstacleCenterX then -(overlapX + eps) else overlapX + eps
      { adjustedPosition := { st.adjustedPosition with x := st.adjustedPosition.x + push },
        entityAABB := ⟨{ a.min with x := a.min.x + push }, { a.max with x := a.max.x + push }⟩,
        velocity := if jsSign st.velocity.x * jsSign push < 0 then { st.velocity with x := 0 }
                    else st.velocity,
        collisionOccurred := true }
    else if overlapY ≤ overlapX ∧ overlapY ≤ overlapZ then
      let entityCenterY := a.min.y + (a.max.y - a.min.y) / 2
      let obstacleCenterY := obstacleBox.min.y + (obstacleBox.max.y - obstacleBox.min.y) / 2
      let push := if entityCenterY < obstacleCenterY then -(overlapY + eps) else overlapY + eps
      { adjustedPosition := { st.adjustedPosition with y := st.adjustedPosition.y + push },
        entityAABB := ⟨{ a.min with y := a.min.y + push }, { a.max with y := a.max.y + push }⟩,
        velocity := if jsSign st.velocity.y * jsSign push < 0 then { st.velocity with y := 0 }
                    else st.velocity,
        collisionOccurred := true }
    else
      let entityCenterZ := a.min.z + (a.max.z - a.min.z) / 2
      let obstacleCenterZ := obstacleBox.min.z + (obstacleBox.max.z - obstacleBox.min.z) / 2
      let push := if entityCenterZ < obstacleCenterZ then -(overlapZ + eps) else overlapZ + eps
      { adjustedPosition := { st.adjustedPosition with z := st.adjustedPosition.z + push },
        entityAABB := ⟨{ a.min with z := a.min.z + push }, { a.max with z := a.max.z + push }⟩,
        velocity := if jsSign st.velocity.z * jsSign push < 0 then { st.velocity with z := 0 }
                    else st.velocity,
        collisionOccurred := true }
  else st

/-- One iteration of `resolveStaticObstacleCollision`: recompute the entity
AABB at the current adjusted position and resolve every obstacle in turn. -/
def staticResolutionPass (bbox : Vec3 → AABB) (obstacles : List Obstacle)
    (adjustedPosition : Vec3) (velocity : Vec3) : StaticPassState :=
  obstacles.foldl resolveOneObstacle
    { adjustedPosition := adjustedPosition, entityAABB := bbox adjustedPosition,
      velocity := velocity, collisionOccurred := false }

/-- `CollisionSystem.resolveStaticObstacleCollision(entity, potentialPosition,
obstacles)`: at most three resolution passes, stopping early once a pass
produces no overlap.  Returns the adjusted position and the velocity. -/
def resolveStaticObstacleCollision (bbox : Vec3 → AABB) (velocity : Vec3)
    (potentialPosition : Vec3) (obstacles : List Obstacle) : Vec3 × Vec3 :=
  let p1 := staticResolutionPass bbox obstacles potentialPosition velocity
  if ¬p1.collisionOccurred then (p1.adjustedPosition, p1.velocity)
  else
    let p2 := staticResolutionPass bbox obstacles p1.adjustedPosition p1.velocity
    if ¬p2.collisionOccurred then (p2.adjustedPosition, p2.velocity)
    else
      let p3 := staticResolutionPass bbox obstacles p2.adjustedPosition p2.velocity
      (p3.adjustedPosition, p3.velocity)

/-! ## Projectiles and the movement integrator —
`shared/entities/projectile.js`, `shared/physics/movement-system.js` -/

/-- The fields of a `Projectile` the movement integrator reads and writes.
The source never sets `ignoreGravity` on a projectile, so the field reads as
falsy there; it is kept because the integrator tests it. -/
structure ProjectileEnt where
  ownerId : String
  position : Vec3
  velocity : Vec3
  damage : ℚ
  width : ℚ
  height : ℚ
  depth : ℚ
  ignoreGravity : Bool
  markForRemoval : Bool
deriving DecidableEq, Repr

/-- `Projectile.getBoundingBox(pos)`: a cube of half-extent `width / 2`
centred on the position, expanded by `1e-3`. -/
def projectileBoundingBox (proj : ProjectileEnt) (pos : Vec3) : AABB :=
  let halfSize := proj.width / 2
  let expansion : ℚ := 1/1000
  ⟨⟨pos.x - halfSize - expansion, pos.y - halfSize - expansion, pos.z - halfSize - expansion⟩,
   ⟨pos.x + halfSize + expansion, pos.y + halfSize + expansion, pos.z + halfSize + expansion⟩⟩

/-- The authoritative impact chosen by `MovementSystem.update` for a
projectile: either a static obstacle or a player (by target-list index and
struck hitbox key), with the impact fraction. -/
inductive FinalHit where
  | staticHit (obstacle : Obstacle) (t : ℚ)
  | playerHit (idx : ℕ) (hitboxKey : String) (t : ℚ)
deriving DecidableEq, Repr

/-- The impact fraction of a chosen hit. -/
def FinalHit.t : FinalHit → ℚ
  | .staticHit _ t => t
  | .playerHit _ _ t => t

/-- The hit-combination step of `MovementSystem.update`: when both the
obstacle raycast and the player raycast hit, the smaller `t` wins and the
obstacle wins ties (`hitStaticResult.t <= hitPlayerResult.t` selects the
obstacle); otherwise whichever hit occurred (if any) is taken. -/
def selectFinalHit (hitStaticResult : Option (Obstacle × ℚ))
    (hitPlayerResult : Option (ℕ × String × ℚ)) : Option FinalHit :=
  match hitStaticResult, hitPlayerResult with
  | some (obstacle, tS), some (idx, key, tP) =>
    if tS ≤ tP then some (.staticHit obstacle tS) else some (.playerHit idx key tP)
  | some (obstacle, tS), none => some (.staticHit obstacle tS)
  | none, some (idx, key, tP) => some (.playerHit idx key tP)
  | none, none => none

/-- The result of the projectile-specific phase of one `MovementSystem.update`
iteration: the candidate final position, velocity, whether the projectile was
stopped this tick, the removal flag, and the (possibly damaged) players. -/
structure ProjectilePhaseResult where
  finalPosition : Vec3
  velocity : Vec3
  projectileStopped : Bool
  markForRemoval : Bool
  players : List WorldPlayer
deriving Repr

/-- One `MovementSystem.update` iteration for a projectile entity (the
`shared/physics/movement-system.js` version with the ground-plane check):
gravity, swept obstacle and player raycasts combined by `selectFinalHit`, the
`0 <= t <= 1` guard snapping to the exact impact point with damage applied to
a struck player, the ground-plane crossing check when no raycast hit stopped
the projectile, world-bounds and static-obstacle resolution when the
projectile was not stopped, and the final velocity zeroing. -/
def movementTickProjectile (mapBounds : AABB) (obstacles : List Obstacle) (dt : ℚ)
    (proj : ProjectileEnt) (players : List WorldPlayer) :
    ProjectileEnt × List WorldPlayer :=
  let groundY := mapBounds.min.y
  let v0 := if proj.ignoreGravity then proj.velocity
            else { proj.velocity with y := proj.velocity.y - GRAVITY * dt }
  let previousPosition := proj.position
  let deltaPosition := v0.smul dt
  let potentialPosition := previousPosition.add deltaPosition
  let groundPhase : ProjectilePhaseResult :=
    if previousPosition.y ≥ groundY ∧ potentialPosition.y < groundY then
      let tGround := (groundY - previousPosition.y) / (potentialPosition.y - previousPosition.y)
      if 0 ≤ tGround ∧ tGround ≤ 1 then
        { finalPosition := previousPosition.add (deltaPosition.smul tGround),
          velocity := Vec3.zero, projectileStopped := true, markForRemoval := true,
          players := players }
      else
        { finalPosition := potentialPosition, velocity := v0, projectileStopped := false,
          markForRemoval := proj.markForRemoval, players := players }
    else
      { finalPosition := potentialPosition, velocity := v0, projectileStopped := false,
        markForRemoval := proj.markForRemoval, players := players }
  let phase : ProjectilePhaseResult :=
    if proj.markForRemoval then
      { finalPosition := potentialPosition, velocity := v0, projectileStopped := false,
        markForRemoval := proj.markForRemoval, players := players }
    else
      match selectFinalHit
          (checkProjectileHitStaticObstacleRaycast previousPosition deltaPosition obstacles)
          (checkProjectileHitRaycast proj.ownerId proj.markForRemoval previousPosition
            deltaPosition players) with
      | some finalHitResult =>
        if 0 ≤ finalHitResult.t ∧ finalHitResult.t ≤ 1 then
          let impactPoint := previousPosition.add (deltaPosition.smul finalHitResult.t)
          let players' :=
            match finalHitResult with
            | .staticHit _ _ => players
            | .playerHit idx hitboxKey _ =>
              match players.get? idx with
              | some target => players.set idx (worldTakeDamage target proj.damage hitboxKey)
              | none => players
          { finalPosition := impactPoint, velocity := Vec3.zero, projectileStopped := true,
            markForRemoval := true, players := players' }
        else groundPhase
      | none => groundPhase
  let (finalPosition, v1) :=
    if ¬phase.projectileStopped then
      let (pB, vB) := resolveWorldBoundsCollision ⟨proj.width, proj.height, proj.depth⟩
        phase.velocity potentialPosition mapBounds
      resolveStaticObstacleCollision (projectileBoundingBox proj) vB pB obstacles
    else (phase.finalPosition, phase.velocity)
  let v2 := if finalPosition.y ≤ groundY + 1/100 ∧ v1.y < 0 then { v1 with y := 0 } else v1
  let v3 := if phase.projectileStopped then Vec3.zero else v2
  ({ proj with position := finalPosition, velocity := v3,
               markForRemoval := phase.markForRemoval }, phase.players)

/-- The fields of `Projectile` touched by `Projectile.update`. -/
structure ProjectileRangeState where
  distanceTraveled : ℚ
  range : ℚ
  markForRemoval : Bool
deriving DecidableEq, Repr

/-- `Projectile.update(deltaTime)`: accumulates `velocity.magnitude() *
deltaTime` into `distanceTraveled` and sets the removal flag once
`distanceTraveled >= range`.  The velocity magnitude (the one square root of
this method) is passed in as `speedMagnitude`. -/
def projectileUpdate (speedMagnitude deltaTime : ℚ) (p : ProjectileRangeState) :
    ProjectileRangeState :=
  let distanceThisFrame := speedMagnitude * deltaTime
  let traveled := p.distanceTraveled + distanceThisFrame
  if traveled ≥ p.range then { p with distanceTraveled := traveled, markForRemoval := true }
  else { p with distanceTraveled := traveled }

/-! ## Weapon fire gate — `shared/gameplay/weapons/weapon.js` -/

/-- A JavaScript ammo count: a finite number or `Infinity`. -/
inductive AmmoCount where
  | finite (n : ℚ)
  | inf
deriving DecidableEq, Repr

/-- The JavaScript comparison `ammo <= 0` (`Infinity <= 0` is false). -/
def AmmoCount.leZero : AmmoCount → Bool
  | .finite n => decide (n ≤ 0)
  | .inf => false

/-- The weapon fields read by `Weapon.canFire`. -/
structure WeaponState where
  ammo : AmmoCount
  maxAmmo : AmmoCount
  isReloading : Bool
  lastFireTime : ℚ
  fireInterval : ℚ
deriving DecidableEq, Repr

/-- `Weapon.canFire()` with `Date.now()` passed in as `now`: false while
reloading; false when `ammo <= 0` and `maxAmmo !== Infinity`; false while
`now - lastFireTime < fireInterval`; true otherwise. -/
def canFire (w : WeaponState) (now : ℚ) : Bool :=
  if w.isReloading then false
  else if w.ammo.leZero ∧ w.maxAmmo ≠ AmmoCount.inf then false
  else if now - w.lastFireTime < w.fireInterval then false
  else true

/-! ## Client reconciliation — `client/src/gameplay/client-player.js` -/

/-- `RECONCILIATION_THRESHOLD_SQ = 0.2 * 0.2`: the squared snap tolerance. -/
def RECONCILIATION_THRESHOLD_SQ : ℚ := (2/10) * (2/10)

/-- An authoritative `PlayerState` snapshot entry as the wire contract
defines it (every field present). -/
structure PlayerStateMsg where
  position : Vec3
  health : ℚ
  maxHealth : ℚ
  score : ℚ
  isAlive : Bool
deriving DecidableEq, Repr

/-- The fields of the locally-controlled `ClientPlayer` touched by
`ClientPlayer.updateState`. -/
structure ClientPlayerState where
  position : Vec3
  velocity : Vec3
  health : ℚ
  maxHealth : ℚ
  score : ℚ
  isAlive : Bool
deriving DecidableEq, Repr

/-- The local-player branch of `ClientPlayer.updateState(newState, ...)`:
non-positional fields are applied from the snapshot; then, when alive, the
squared distance from the predicted position to the server position is
compared against `RECONCILIATION_THRESHOLD_SQ` and a strictly larger
discrepancy snaps the position and zeroes the velocity; when dead the
position is forced to the server position and the velocity zeroed. -/
def clientUpdateStateLocal (p : ClientPlayerState) (newState : PlayerStateMsg) :
    ClientPlayerState :=
  let p1 := { p with health := newState.health, maxHealth := newState.maxHealth,
                     score := newState.score, isAlive := newState.isAlive }
  if p1.isAlive then
    let serverPos := newState.position
    let discrepancySq := p1.position.distanceToSq serverPos
    if discrepancySq > RECONCILIATION_THRESHOLD_SQ then
      { p1 with position := serverPos, velocity := Vec3.zero }
    else p1
  else
    { p1 with position := newState.position, velocity := Vec3.zero }

/-! ## Server input application — `server/src/gameplay/server-player.js` -/

/-- The transcendental kernels of input application (`Math.cos`, `Math.sin`,
`Math.exp`, `Math.sqrt`), abstracted as an environment of rational-valued
functions: the claims about `applyInputs` are independent of their values. -/
structure TranscEnv where
  cos : ℚ → ℚ
  sin : ℚ → ℚ
  exp : ℚ → ℚ
  sqrt : ℚ → ℚ

/-- The movement-relevant keys of a `PlayerInput` packet. -/
structure InputKeys where
  W : Bool
  A : Bool
  S : Bool
  D : Bool
  Fire : Bool
deriving DecidableEq, Repr

/-- A `PlayerInput` packet as buffered in `pendingInputs`. -/
structure PInput where
  sequence : ℤ
  keys : InputKeys
  lookYaw : ℚ
  lookPitch : ℚ
deriving DecidableEq, Repr

/-- The fields of `ServerPlayer` read and written by `applyInputs`. -/
structure ServerPlayerState where
  velocity : Vec3
  lookYaw : ℚ
  lookPitch : ℚ
  lastProcessedInputSequence : ℤ
  pendingInputs : List PInput
  isAlive : Bool
deriving Repr

/-- The loop body of the input-selection scan of `ServerPlayer.applyInputs`. -/
def selectInputStep (lastProcessedInputSequence : ℤ) (latestInput : Option PInput)
    (input : PInput) : Option PInput :=
  if input.sequence > lastProcessedInputSequence then
    match latestInput with
    | none => some input
    | some best => if input.sequence > best.sequence then some input else latestInput
  else latestInput

/-- The input-selection loop of `ServerPlayer.applyInputs`: scan the pending
buffer keeping the input of strictly greatest sequence among those with
sequence strictly greater than `lastProcessedInputSequence` (on equal
sequence numbers the earlier buffer entry is kept). -/
def selectLatestInput (pendingInputs : List PInput) (lastProcessedInputSequence : ℤ) :
    Option PInput :=
  pendingInputs.foldl (selectInputStep lastProcessedInputSequence) none

/-- `Vector3.normalize` with the square root supplied by the environment:
divide by the magnitude when it exceeds `1e-5`, else zero the vector. -/
def vnormalize (env : TranscEnv) (v : Vec3) : Vec3 :=
  let mag := env.sqrt v.magnitudeSq
  if mag > 1/100000 then ⟨v.x / mag, v.y / mag, v.z / mag⟩ else Vec3.zero

/-- The local WASD input vector of `applyInputs` (`W`: `z -= 1`, `S`:
`z += 1`, `A`: `x -= 1`, `D`: `x += 1`). -/
def inputDirectionOf (keys : InputKeys) : Vec3 :=
  ⟨(if keys.A then -1 else 0) + (if keys.D then 1 else 0), 0,
   (if keys.W then -1 else 0) + (if keys.S then 1 else 0)⟩

/-- The world-space target velocity of `applyInputs`: rotate the normalised
local input by the look yaw and scale by `BASE_PLAYER_SPEED`; the boolean
reports `hasMovementInput`. -/
def computeTargetVelocity (env : TranscEnv) (input : PInput) : Vec3 × Bool :=
  let inputDirection := inputDirectionOf input.keys
  if inputDirection.magnitudeSq > 0 then
    let nd := vnormalize env inputDirection
    let cosYaw := env.cos input.lookYaw
    let sinYaw := env.sin input.lookYaw
    let worldX := nd.x * cosYaw + nd.z * sinYaw
    let worldZ := -nd.x * sinYaw + nd.z * cosYaw
    let worldDirection := vnormalize env ⟨worldX, 0, worldZ⟩
    (worldDirection.smul BASE_PLAYER_SPEED, true)
  else (Vec3.zero, false)

/-- The exponential-friction step of `applyInputs`: lerp the velocity toward
zero by `1 - exp(-K_FRICTION * dt)` and snap to exactly zero below the
minimum-speed threshold. -/
def frictionVelocity (env : TranscEnv) (serverDeltaTime : ℚ) (v : Vec3) : Vec3 :=
  let alpha := 1 - env.exp (-(PLAYER_FRICTION * serverDeltaTime))
  let v' := v.lerpTo Vec3.zero alpha
  if v'.magnitudeSq < MIN_SPEED_THRESHOLD * MIN_SPEED_THRESHOLD then Vec3.zero else v'

/-- The exponential-acceleration step of `applyInputs`: lerp the velocity
toward the target by `1 - exp(-K_ACCEL * dt)`. -/
def accelVelocity (env : TranscEnv) (serverDeltaTime : ℚ) (v targetVelocity : Vec3) : Vec3 :=
  v.lerpTo targetVelocity (1 - env.exp (-(PLAYER_ACCELERATION * serverDeltaTime)))

/-- Application of the one selected input inside `ServerPlayer.applyInputs`:
adopt its look angles, advance `lastProcessedInputSequence` to its sequence,
drop every buffered input at or below it, and drive the velocity toward the
input's target velocity (or apply friction when it carries no movement keys).
The `keys.Fire` branch of the source only builds a fire direction and
delegates to the weapon/event system; it touches none of these fields. -/
def applySingleInput (env : TranscEnv) (serverDeltaTime : ℚ) (st : ServerPlayerState)
    (input : PInput) : ServerPlayerState :=
  let st1 := { st with lookYaw := input.lookYaw, lookPitch := input.lookPitch }
  let tv := computeTargetVelocity env input
  let st2 := { st1 with
    lastProcessedInputSequence := input.sequence,
    pendingInputs := st1.pendingInputs.filter (fun inp => decide (inp.sequence > input.sequence)) }
  if tv.2 then { st2 with velocity := accelVelocity env serverDeltaTime st2.velocity tv.1 }
  else { st2 with velocity := frictionVelocity env serverDeltaTime st2.velocity }

/-- `ServerPlayer.applyInputs(serverDeltaTime)`: a dead player has its
velocity zeroed and its buffer cleared; otherwise the newest pending input
strictly beyond `lastProcessedInputSequence` (if any) is applied via
`applySingleInput`, and with no such input the stale buffer entries are
dropped and friction is applied. -/
def applyInputs (env : TranscEnv) (serverDeltaTime : ℚ) (st : ServerPlayerState) :
    ServerPlayerState :=
  if ¬st.isAlive then { st with velocity := Vec3.zero, pendingInputs := [] }
  else
    match selectLatestInput st.pendingInputs st.lastProcessedInputSequence with
    | some input => applySingleInput env serverDeltaTime st input
    | none =>
      let st1 := { st with pendingInputs :=
        st.pendingInputs.filter (fun inp => decide (inp.sequence > st.lastProcessedInputSequence)) }
      { st1 with velocity := frictionVelocity env serverDeltaTime st1.velocity }

/-- One call in a `takeDamage`/`heal` call sequence. -/
inductive HealthOp where
  | damage (baseAmount : ℚ) (hitboxKey : String)
  | heal (amount : ℚ)
deriving DecidableEq, Repr

/-- Apply one call of a `takeDamage`/`heal` sequence. -/
def applyHealthOp (p : PlayerHealthState) (op : HealthOp) : PlayerHealthState :=
  match op with
  | .damage a k => takeDamage p a k
  | .heal a => heal p a

/-! ## Theorems -/

/-- Step preservation for the health interval: one `takeDamage`/`heal` call
keeps `health` in `[0, maxHealth]` and never changes `maxHealth`. -/
theorem applyHealthOp_preserves (p : PlayerHealthState) (op : HealthOp)
    (h0 : 0 ≤ p.health) (h1 : p.health ≤ p.maxHealth) :
    0 ≤ (applyHealthOp p op).health ∧
    (applyHealthOp p op).health ≤ (applyHealthOp p op).maxHealth ∧
    (applyHealthOp p op).maxHealth = p.maxHealth := by
  have hm : 0 ≤ p.maxHealth := le_trans h0 h1
  cases op with
  | damage a k =>
    simp only [applyHealthOp, takeDamage]
    split_ifs
    · exact ⟨h0, h1, rfl⟩
    · exact ⟨le_max_left _ _, max_le hm (min_le_right _ _), rfl⟩
    · exact ⟨le_max_left _ _, max_le hm (min_le_right _ _), rfl⟩
  | heal a =>
    simp only [applyHealthOp, heal]
    split_ifs
    · exact ⟨h0, h1, rfl⟩
    · exact ⟨le_max_left _ _, max_le hm (min_le_right _ _), rfl⟩

/-- C10: `heal` is a frame-preserving no-op on a dead player, and likewise
for a non-positive amount on any player: the entire player state is returned
unchanged. -/
theorem heal_noop_frame (p : PlayerHealthState) (amount : ℚ)
    (h : p.isAlive = false ∨ amount ≤ 0) : heal p amount = p := by
  unfold heal
  rcases h with h | h
  · rw [if_pos (Or.inl (by simp [h]))]
  · rw [if_pos (Or.inr h)]

/-- Witness for C10: healing a dead player at half health changes nothing. -/
theorem heal_noop_frame_witness :
    heal ⟨50, 100, 0, false⟩ 10 = ⟨50, 100, 0, false⟩ :=
  heal_noop_frame ⟨50, 100, 0, false⟩ 10 (Or.inl rfl)

/-- C5: on a live player with positive base damage, `takeDamage` subtracts
`Math.round(baseAmount * regionMultiplier)` from health clamped into
`[0, maxHealth]`, where the region multipliers are the fixed constants
head `3.0`, torso `1.0`, arms `0.8`, legs `0.6` and default `1.0`. -/
theorem regionMultiplier_head : regionMultiplier "head" = 3 := by
  simp only [regionMultiplier]
  rw [if_pos (by decide)]
  rfl

theorem regionMultiplier_torso : regionMultiplier "torso" = 1 := by
  simp only [regionMultiplier]
  rw [if_neg (by decide), if_pos (by decide)]
  rfl

theorem regionMultiplier_arms : regionMultiplier "arms" = 8/10 := by
  simp only [regionMultiplier]
  rw [if_neg (by decide), if_neg (by decide), if_pos (by decide)]
  rfl

theorem regionMultiplier_legs : regionMultiplier "legs" = 6/10 := by
  simp only [regionMultiplier]
  rw [if_neg (by decide), if_neg (by decide), if_neg (by decide), if_pos (by decide)]
  rfl

theorem takeDamage_formula (p : PlayerHealthState) (baseAmount : ℚ) (hitboxKey : String)
    (halive : p.isAlive = true) (hpos : 0 < baseAmount) :
    (takeDamage p baseAmount hitboxKey).health =
      clamp (p.health - jsRound (baseAmount * regionMultiplier hitboxKey)) 0 p.maxHealth ∧
    regionMultiplier "head" = 3 ∧ regionMultiplier "torso" = 1 ∧
    regionMultiplier "arms" = 8/10 ∧ regionMultiplier "legs" = 6/10 ∧
    (jsToLower hitboxKey ≠ "head" → jsToLower hitboxKey ≠ "torso" →
      jsToLower hitboxKey ≠ "arms" → jsToLower hitboxKey ≠ "legs" →
      regionMultiplier hitboxKey = 1) := by
  refine ⟨?_, regionMultiplier_head, regionMultiplier_torso, regionMultiplier_arms,
    regionMultiplier_legs, ?_⟩
  · simp only [takeDamage]
    rw [if_neg (by simp [halive, not_le]; exact hpos)]
    split_ifs <;> rfl
  · intro h1 h2 h3 h4
    simp only [regionMultiplier, if_neg h1, if_neg h2, if_neg h3, if_neg h4,
      DAMAGE_MULTIPLIER_DEFAULT]

/-- Witness for C5 — the head-shot scenario: full health `100`, base damage
`15` to the head gives final damage `round(45) = 45` and health `55`. -/
theorem takeDamage_formula_witness :
    (takeDamage (playerInit 100) 15 "head").health = 55 ∧
    jsRound (15 * regionMultiplier "head") = 45 := by
  have hj : jsRound (15 * regionMultiplier "head") = 45 := by
    rw [regionMultiplier_head]
    norm_num [jsRound]
  constructor
  · have h := (takeDamage_formula (playerInit 100) 15 "head" rfl (by norm_num)).1
    rw [h, hj]
    norm_num [playerInit, clamp]
  · exact hj

/-- C4 counterexample: the claim quantifies over every `maxHealth`, but a
player constructed with `maxHealth = -1` (so `health = -1`) healed by `5`
ends at `health = 0`, which does not lie in the (empty) interval
`[0, maxHealth] = [0, -1]`. -/
theorem health_interval_counterexample :
    ¬(0 ≤ ([HealthOp.heal 5].foldl applyHealthOp (playerInit (-1))).health ∧
      ([HealthOp.heal 5].foldl applyHealthOp (playerInit (-1))).health ≤
        ([HealthOp.heal 5].foldl applyHealthOp (playerInit (-1))).maxHealth) := by
  norm_num [applyHealthOp, heal, playerInit, clamp]

/-- C4 amended: for every player whose `maxHealth` is non-negative and whose
health starts inside `[0, maxHealth]` (as the constructor `health =
maxHealth` guarantees), every finite sequence of `takeDamage`/`heal` calls of
arbitrary magnitudes, zero and negative included, keeps `health` in
`[0, maxHealth]`; applied to every prefix this bounds the health after every
call of the sequence. -/
theorem health_interval_amended (p : PlayerHealthState) (ops : List HealthOp)
    (h0 : 0 ≤ p.health) (h1 : p.health ≤ p.maxHealth) :
    0 ≤ (ops.foldl applyHealthOp p).health ∧
    (ops.foldl applyHealthOp p).health ≤ (ops.foldl applyHealthOp p).maxHealth := by
  induction ops generalizing p with
  | nil => exact ⟨h0, h1⟩
  | cons op rest ih =>
    have h := applyHealthOp_preserves p op h0 h1
    simpa using ih (applyHealthOp p op) h.1 h.2.1

/-- Witness for the amended C4: a mixed damage/heal/no-op sequence from full
health `100` stays inside `[0, 100]`. -/
theorem health_interval_amended_witness :
    0 ≤ (([HealthOp.damage 15 "head", HealthOp.heal 200,
           HealthOp.damage (-5) "legs"].foldl applyHealthOp (playerInit 100)).health) ∧
    (([HealthOp.damage 15 "head", HealthOp.heal 200,
       HealthOp.damage (-5) "legs"].foldl applyHealthOp (playerInit 100)).health) ≤
      (([HealthOp.damage 15 "head", HealthOp.heal 200,
         HealthOp.damage (-5) "legs"].foldl applyHealthOp (playerInit 100)).maxHealth) :=
  health_interval_amended (playerInit 100) _ (by norm_num [playerInit]) (by norm_num [playerInit])

/-- C6 counterexample: the claim says `canFire` is false whenever the ammo is
finite and `<= 0`, but the source gates on `maxAmmo !== Infinity`: a weapon
with finite `ammo = 0` yet infinite `maxAmmo`, not reloading and past its
cooldown, still fires. -/
theorem canFire_counterexample :
    canFire ⟨.finite 0, .inf, false, 0, 200⟩ 500 = true := by
  norm_num [canFire, AmmoCount.leZero]

/-- C6 amended: `canFire()` is false while reloading, false when the ammo is
`<= 0` and `maxAmmo` is finite (the source's `maxAmmo !== Infinity` gate,
where the claim said "ammo is finite"), false while
`now - lastFireTime < fireInterval`, and true otherwise. -/
theorem canFire_characterisation (w : WeaponState) (now : ℚ) :
    canFire w now = true ↔
      ¬w.isReloading = true ∧
      ¬(w.ammo.leZero = true ∧ w.maxAmmo ≠ AmmoCount.inf) ∧
      ¬(now - w.lastFireTime < w.fireInterval) := by
  unfold canFire
  split_ifs with h1 h2 h3 <;> simp_all

/-- C3: applying an authoritative snapshot to the locally-controlled alive
player overwrites health, maxHealth, score and the alive flag from the
snapshot, and snaps the position to the server position with the velocity
zeroed exactly when the squared prediction error strictly exceeds
`RECONCILIATION_THRESHOLD_SQ`; at or below the threshold (in particular at
exactly the threshold) position and velocity are untouched. -/
theorem reconciliation_threshold (p : ClientPlayerState) (ns : PlayerStateMsg)
    (halive : ns.isAlive = true) :
    (clientUpdateStateLocal p ns).health = ns.health ∧
    (clientUpdateStateLocal p ns).maxHealth = ns.maxHealth ∧
    (clientUpdateStateLocal p ns).score = ns.score ∧
    (clientUpdateStateLocal p ns).isAlive = ns.isAlive ∧
    (p.position.distanceToSq ns.position > RECONCILIATION_THRESHOLD_SQ →
      (clientUpdateStateLocal p ns).position = ns.position ∧
      (clientUpdateStateLocal p ns).velocity = Vec3.zero) ∧
    (p.position.distanceToSq ns.position ≤ RECONCILIATION_THRESHOLD_SQ →
      (clientUpdateStateLocal p ns).position = p.position ∧
      (clientUpdateStateLocal p ns).velocity = p.velocity) := by
  simp only [clientUpdateStateLocal, halive, if_true]
  split_ifs with hd
  · exact ⟨rfl, rfl, rfl, rfl, fun _ => ⟨rfl, rfl⟩, fun h => absurd hd (not_lt.mpr h)⟩
  · exact ⟨rfl, rfl, rfl, rfl, fun h => absurd h hd, fun _ => ⟨rfl, rfl⟩⟩

/-- Witness for C3 — the exact-threshold case: a prediction error of squared
distance exactly `(0.2)^2` does not snap; position and velocity survive. -/
theorem reconciliation_threshold_witness :
    (clientUpdateStateLocal ⟨⟨1/5, 0, 0⟩, ⟨1, 2, 3⟩, 50, 100, 0, true⟩
        ⟨⟨0, 0, 0⟩, 80, 100, 4, true⟩).position = ⟨1/5, 0, 0⟩ ∧
    (clientUpdateStateLocal ⟨⟨1/5, 0, 0⟩, ⟨1, 2, 3⟩, 50, 100, 0, true⟩
        ⟨⟨0, 0, 0⟩, 80, 100, 4, true⟩).velocity = ⟨1, 2, 3⟩ :=
  (reconciliation_threshold ⟨⟨1/5, 0, 0⟩, ⟨1, 2, 3⟩, 50, 100, 0, true⟩
    ⟨⟨0, 0, 0⟩, 80, 100, 4, true⟩ rfl).2.2.2.2.2
    (by norm_num [Vec3.distanceToSq, RECONCILIATION_THRESHOLD_SQ])

/-- Iterating `Projectile.update` never changes the `range` field. -/
theorem projectileUpdate_iterate_range (S dt : ℚ) (p : ProjectileRangeState) (n : ℕ) :
    ((projectileUpdate S dt)^[n] p).range = p.range := by
  induction n with
  | zero => rfl
  | succ n ih =>
    rw [Function.iterate_succ_apply']
    simp only [projectileUpdate]
    split_ifs <;> simpa using ih

/-- C7: a projectile of range `R > 0` ticked with constant speed `S > 0` and
fixed `dt > 0` accumulates exactly `S * dt` of distance per call, and its
removal flag is set precisely from call `⌈R / (S * dt)⌉` on (so
`distanceTraveled >= R` first holds, and removal is flagged, on exactly that
call, absent an earlier collision). -/
theorem projectile_range_termination (S dt R : ℚ) (hS : 0 < S) (hdt : 0 < dt)
    (hR : 0 < R) (n : ℕ) :
    ((projectileUpdate S dt)^[n] ⟨0, R, false⟩).distanceTraveled = n * (S * dt) ∧
    (((projectileUpdate S dt)^[n] ⟨0, R, false⟩).markForRemoval = true ↔
      ⌈R / (S * dt)⌉ ≤ (n : ℤ)) := by
  have hSdt : 0 < S * dt := mul_pos hS hdt
  induction n with
  | zero =>
    refine ⟨by simp, ?_⟩
    simp only [Function.iterate_zero, id_eq, Nat.cast_zero]
    constructor
    · intro h; cases h
    · intro h
      exact absurd (lt_of_lt_of_le (Int.ceil_pos.mpr (div_pos hR hSdt)) h) (lt_irrefl 0)
  | succ n ih =>
    obtain ⟨hd, hm⟩ := ih
    have hrange := projectileUpdate_iterate_range S dt ⟨0, R, false⟩ n
    rw [Function.iterate_succ_apply']
    simp only [projectileUpdate]
    constructor
    · split_ifs <;> · simp only [hd]; push_cast; ring
    · have hdistrib : ((n : ℚ) + 1) * (S * dt) = (n : ℚ) * (S * dt) + S * dt := by ring
      split_ifs with hge
      · simp only [true_iff]
        rw [hd, hrange] at hge
        have h1 : R / (S * dt) ≤ (((n : ℤ) + 1 : ℤ) : ℚ) := by
          rw [div_le_iff₀ hSdt]
          push_cast
          rw [hdistrib]
          exact hge
        have h2 := Int.ceil_le.mpr h1
        push_cast
        exact h2
      · rw [hd, hrange] at hge
        push_neg at hge
        simp only [hm]
        constructor
        · intro h
          push_cast
          omega
        · intro h
          exfalso
          have h1 : R / (S * dt) ≤ ((n : ℚ) + 1) := by
            have h2 := Int.ceil_le.mp h
            push_cast at h2
            linarith
          rw [div_le_iff₀ hSdt, hdistrib] at h1
          linarith

/-- Witness for C7: with `S = 2`, `dt = 1/2`, `R = 5`, the flag is clear
after four ticks and set by the fifth (`⌈5 / 1⌉ = 5`), the distance then
being exactly `5`. -/
theorem projectile_range_termination_witness :
    ((projectileUpdate 2 (1/2))^[5] ⟨0, 5, false⟩).markForRemoval = true ∧
    ((projectileUpdate 2 (1/2))^[4] ⟨0, 5, false⟩).markForRemoval = false ∧
    ((projectileUpdate 2 (1/2))^[5] ⟨0, 5, false⟩).distanceTraveled = 5 := by
  have hceil : ⌈(5 : ℚ) / (2 * (1/2))⌉ = 5 := by
    have h : (5 : ℚ) / (2 * (1/2)) = ((5 : ℤ) : ℚ) := by norm_num
    rw [h, Int.ceil_intCast]
  have h5 := projectile_range_termination 2 (1/2) 5 (by norm_num) (by norm_num) (by norm_num) 5
  have h4 := projectile_range_termination 2 (1/2) 5 (by norm_num) (by norm_num) (by norm_num) 4
  refine ⟨h5.2.mpr (by rw [hceil]; norm_num), ?_, by rw [h5.1]; norm_num⟩
  exact Bool.eq_false_iff.mpr (fun hm => absurd (h4.2.mp hm) (by rw [hceil]; norm_num))

/-- Case analysis of one input-selection step: either the candidate is kept
(and any newer-than-processed rejected input was at most the candidate's
sequence), or the scanned input replaces it, being newer than both the
processed sequence and the candidate. -/
theorem selectInputStep_cases (lastSeq : ℤ) (acc : Option PInput) (a : PInput) :
    (selectInputStep lastSeq acc a = acc ∧
      (a.sequence > lastSeq → ∃ b, acc = some b ∧ a.sequence ≤ b.sequence)) ∨
    (selectInputStep lastSeq acc a = some a ∧ a.sequence > lastSeq ∧
      ∀ b, acc = some b → b.sequence ≤ a.sequence) := by
  unfold selectInputStep
  split_ifs with hgt
  · cases acc with
    | none => right; exact ⟨rfl, hgt, by simp⟩
    | some best =>
      by_cases hb : a.sequence > best.sequence
      · right
        refine ⟨by simp [hb], hgt, ?_⟩
        intro b hbeq
        cases Option.some.inj hbeq
        exact le_of_lt hb
      · left
        refine ⟨by simp [hb], fun _ => ⟨best, rfl, not_lt.mp hb⟩⟩
  · left
    exact ⟨rfl, fun h => absurd h hgt⟩

/-- The input-selection fold returns an element of the scanned list (or the
seed) that is newer than the processed sequence and of maximal sequence among
the eligible scanned inputs. -/
theorem selectInput_go (lastSeq : ℤ) (l : List PInput) :
    ∀ (acc : Option PInput),
      (∀ b, acc = some b → b.sequence > lastSeq) →
      ∀ i, l.foldl (selectInputStep lastSeq) acc = some i →
        (i ∈ l ∨ acc = some i) ∧ i.sequence > lastSeq ∧
        (∀ j ∈ l, j.sequence > lastSeq → j.sequence ≤ i.sequence) ∧
        (∀ b, acc = some b → b.sequence ≤ i.sequence) := by
  induction l with
  | nil =>
    intro acc hacc i h
    simp only [List.foldl_nil] at h
    refine ⟨Or.inr h, hacc i h, by simp, fun b hb => ?_⟩
    cases Option.some.inj (h.symm.trans hb)
    exact le_refl _
  | cons a t ih =>
    intro acc hacc i h
    simp only [List.foldl_cons] at h
    rcases selectInputStep_cases lastSeq acc a with ⟨heq, himp⟩ | ⟨heq, hgta, hle⟩
    · rw [heq] at h
      obtain ⟨hmem, hgt, hmax, hacc_le⟩ := ih acc hacc i h
      refine ⟨?_, hgt, ?_, hacc_le⟩
      · rcases hmem with hm | hm
        · exact Or.inl (List.mem_cons_of_mem a hm)
        · exact Or.inr hm
      · intro j hj hjgt
        rcases List.mem_cons.mp hj with rfl | hj'
        · obtain ⟨b, hb, hab⟩ := himp hjgt
          exact le_trans hab (hacc_le b hb)
        · exact hmax j hj' hjgt
    · rw [heq] at h
      have hstep : ∀ b, (some a : Option PInput) = some b → b.sequence > lastSeq := by
        intro b hb; cases Option.some.inj hb; exact hgta
      obtain ⟨hmem, hgt, hmax, hsome_le⟩ := ih (some a) hstep i h
      have hai : a.sequence ≤ i.sequence := hsome_le a rfl
      refine ⟨?_, hgt, ?_, ?_⟩
      · rcases hmem with hm | hm
        · exact Or.inl (List.mem_cons_of_mem a hm)
        · cases Option.some.inj hm
          exact Or.inl (List.mem_cons_self a t)
      · intro j hj hjgt
        rcases List.mem_cons.mp hj with rfl | hj'
        · exact hai
        · exact hmax j hj' hjgt
      · intro b hb
        exact le_trans (hle b hb) hai

/-- The selected input of `ServerPlayer.applyInputs` is a pending input whose
sequence strictly exceeds the last processed one and dominates every other
eligible pending input. -/
theorem selectLatestInput_spec (l : List PInput) (lastSeq : ℤ) (i : PInput)
    (h : selectLatestInput l lastSeq = some i) :
    i ∈ l ∧ i.sequence > lastSeq ∧
    ∀ j ∈ l, j.sequence > lastSeq → j.sequence ≤ i.sequence := by
  obtain ⟨hmem, hgt, hmax, _⟩ := selectInput_go lastSeq l none (by simp) i h
  exact ⟨hmem.resolve_right (by simp), hgt, hmax⟩

/-- C8: each `ServerPlayer.applyInputs` call applies at most one pending
input — the one of greatest sequence among those strictly newer than
`lastProcessedInputSequence`; the whole update equals the single-input
application `applySingleInput`, which advances `lastProcessedInputSequence`
to the applied sequence and discards every other buffered input; with no
eligible input none is applied (friction only), and a dead player discards
the buffer with zero inputs applied. -/
theorem single_input_application (env : TranscEnv) (dt : ℚ) (st : ServerPlayerState) :
    (st.isAlive = false →
      applyInputs env dt st = { st with velocity := Vec3.zero, pendingInputs := [] }) ∧
    (st.isAlive = true →
      (∀ input, selectLatestInput st.pendingInputs st.lastProcessedInputSequence = some input →
        input ∈ st.pendingInputs ∧
        input.sequence > st.lastProcessedInputSequence ∧
        (∀ j ∈ st.pendingInputs, j.sequence > st.lastProcessedInputSequence →
          j.sequence ≤ input.sequence) ∧
        applyInputs env dt st = applySingleInput env dt st input ∧
        (applyInputs env dt st).lastProcessedInputSequence = input.sequence ∧
        (applyInputs env dt st).pendingInputs =
          st.pendingInputs.filter (fun inp => decide (inp.sequence > input.sequence))) ∧
      (selectLatestInput st.pendingInputs st.lastProcessedInputSequence = none →
        applyInputs env dt st = { st with
          velocity := frictionVelocity env dt st.velocity,
          pendingInputs := st.pendingInputs.filter
            (fun inp => decide (inp.sequence > st.lastProcessedInputSequence)) })) := by
  constructor
  · intro hdead
    unfold applyInputs
    rw [if_pos (by simp [hdead])]
  · intro halive
    have happ : ∀ input,
        selectLatestInput st.pendingInputs st.lastProcessedInputSequence = some input →
        applyInputs env dt st = applySingleInput env dt st input := by
      intro input hsel
      unfold applyInputs
      rw [if_neg (by simp [halive]), hsel]
    constructor
    · intro input hsel
      obtain ⟨hmem, hgt, hmax⟩ := selectLatestInput_spec _ _ _ hsel
      have heq := happ input hsel
      refine ⟨hmem, hgt, hmax, heq, ?_, ?_⟩
      · rw [heq]
        simp only [applySingleInput]
        split_ifs <;> rfl
      · rw [heq]
        simp only [applySingleInput]
        split_ifs <;> rfl
    · intro hsel
      unfold applyInputs
      rw [if_neg (by simp [halive]), hsel]

/-- Witness for C8: from `lastProcessedInputSequence = 4` and buffered
sequences `5, 3, 7`, the input of sequence `7` is the one applied. -/
theorem single_input_application_witness :
    (applyInputs ⟨fun _ => 1, fun _ => 0, fun _ => 1, fun _ => 1⟩ 1
      ⟨⟨0, 0, 0⟩, 0, 0, 4,
       [⟨5, ⟨false, false, false, false, false⟩, 0, 0⟩,
        ⟨3, ⟨false, false, false, false, false⟩, 0, 0⟩,
        ⟨7, ⟨true, false, false, false, false⟩, 1, 2⟩],
       true⟩).lastProcessedInputSequence = 7 := by
  have h := ((single_input_application ⟨fun _ => 1, fun _ => 0, fun _ => 1, fun _ => 1⟩ 1
      ⟨⟨0, 0, 0⟩, 0, 0, 4,
       [⟨5, ⟨false, false, false, false, false⟩, 0, 0⟩,
        ⟨3, ⟨false, false, false, false, false⟩, 0, 0⟩,
        ⟨7, ⟨true, false, false, false, false⟩, 1, 2⟩],
       true⟩).2 rfl).1
    ⟨7, ⟨true, false, false, false, false⟩, 1, 2⟩ (by rfl)
  exact h.2.2.2.2.1

/-- C9 counterexample: for an entity wider than the map (width `4` against an
x-extent of `1`), `resolveWorldBoundsCollision` oscillates: clamping from the
min side leaves the AABB overflowing the max side, so a second application
moves the position again — applying twice differs from applying once. -/
theorem resolveWorldBounds_counterexample :
    (resolveWorldBoundsCollision ⟨4, 1, 1⟩ Vec3.zero
        ((resolveWorldBoundsCollision ⟨4, 1, 1⟩ Vec3.zero ⟨-10, 0, 0⟩
            ⟨⟨0, 0, 0⟩, ⟨1, 10, 10⟩⟩).1)
        ⟨⟨0, 0, 0⟩, ⟨1, 10, 10⟩⟩).1 ≠
      (resolveWorldBoundsCollision ⟨4, 1, 1⟩ Vec3.zero ⟨-10, 0, 0⟩
          ⟨⟨0, 0, 0⟩, ⟨1, 10, 10⟩⟩).1 := by
  norm_num [resolveWorldBoundsCollision, orDefault, Vec3.zero]

/-- C9 amended: an already-in-bounds position is returned unchanged by
`resolveWorldBoundsCollision` (unconditionally), and for every entity whose
AABB fits inside the bounds on each axis (width, height and depth at most the
corresponding extent of the bounds) the clamped output is itself a fixed
point: applying the resolver twice returns the same position as applying it
once, independently of the velocities passed. -/
theorem resolveWorldBounds_idempotent (dims : EntityDims) (mapBounds : AABB)
    (v v' p : Vec3) :
    ((mapBounds.min.x ≤ p.x - orDefault dims.width (1/10) / 2 ∧
      p.x + orDefault dims.width (1/10) / 2 ≤ mapBounds.max.x ∧
      mapBounds.min.y ≤ p.y ∧
      p.y + orDefault dims.height (1/10) ≤ mapBounds.max.y ∧
      mapBounds.min.z ≤ p.z - orDefault dims.depth (orDefault dims.width (1/10)) / 2 ∧
      p.z + orDefault dims.depth (orDefault dims.width (1/10)) / 2 ≤ mapBounds.max.z) →
      (resolveWorldBoundsCollision dims v p mapBounds).1 = p) ∧
    ((orDefault dims.width (1/10) ≤ mapBounds.max.x - mapBounds.min.x ∧
      orDefault dims.height (1/10) ≤ mapBounds.max.y - mapBounds.min.y ∧
      orDefault dims.depth (orDefault dims.width (1/10)) ≤ mapBounds.max.z - mapBounds.min.z) →
      (resolveWorldBoundsCollision dims v'
          (resolveWorldBoundsCollision dims v p mapBounds).1 mapBounds).1 =
        (resolveWorldBoundsCollision dims v p mapBounds).1) := by
  constructor
  · rintro ⟨h1, h2, h3, h4, h5, h6⟩
    simp only [resolveWorldBoundsCollision]
    rw [if_neg (not_lt.mpr h1), if_neg (not_lt.mpr h2), if_neg (not_lt.mpr h3),
      if_neg (not_lt.mpr h4), if_neg (not_lt.mpr h5), if_neg (not_lt.mpr h6)]
  · rintro ⟨hW, hH, hD⟩
    simp only [resolveWorldBoundsCollision, Vec3.mk.injEq]
    refine ⟨?_, ?_, ?_⟩ <;> split_ifs <;> first | rfl | linarith

/-- Witness for the amended C9: a player-sized entity (width `0.8`, height
`1.8`) against the bounds `[-50, 50]^3`, pushed far out at `(-60, -3, 0)`,
is clamped once and the clamped position is a fixed point. -/
theorem resolveWorldBounds_idempotent_witness :
    (resolveWorldBoundsCollision ⟨8/10, 18/10, 8/10⟩ ⟨0, 0, 0⟩
        ((resolveWorldBoundsCollision ⟨8/10, 18/10, 8/10⟩ ⟨-5, -5, 0⟩ ⟨-60, -3, 0⟩
            ⟨⟨-50, 0, -50⟩, ⟨50, 50, 50⟩⟩).1)
        ⟨⟨-50, 0, -50⟩, ⟨50, 50, 50⟩⟩).1 =
      (resolveWorldBoundsCollision ⟨8/10, 18/10, 8/10⟩ ⟨-5, -5, 0⟩ ⟨-60, -3, 0⟩
          ⟨⟨-50, 0, -50⟩, ⟨50, 50, 50⟩⟩).1 :=
  (resolveWorldBounds_idempotent ⟨8/10, 18/10, 8/10⟩ ⟨⟨-50, 0, -50⟩, ⟨50, 50, 50⟩⟩
      ⟨-5, -5, 0⟩ ⟨0, 0, 0⟩ ⟨-60, -3, 0⟩).2
    (by norm_num [orDefault])

/-- A parallel axis whose origin lies inside the slab leaves the slab
accumulator untouched. -/
theorem slabAxis_par {d o mn mx : ℚ} (acc : ℚ × ℚ) (hpar : |d| < SLAB_EPSILON)
    (h1 : mn ≤ o) (h2 : o ≤ mx) : slabAxis d o mn mx acc = some acc := by
  simp only [slabAxis]
  rw [if_pos hpar, if_neg (by push_neg; exact ⟨h1, h2⟩)]

/-- A parallel axis whose origin lies outside the slab rejects. -/
theorem slabAxis_par_outside {d o mn mx : ℚ} (acc : ℚ × ℚ) (hpar : |d| < SLAB_EPSILON)
    (hout : o < mn ∨ o > mx) : slabAxis d o mn mx acc = none := by
  simp only [slabAxis]
  rw [if_pos hpar, if_pos hout]

/-- A non-parallel axis intersects the accumulator interval with its
entry/exit interval, rejecting when the result is inverted. -/
theorem slabAxis_nonpar {d o mn mx : ℚ} (acc : ℚ × ℚ) (hpar : ¬|d| < SLAB_EPSILON) :
    slabAxis d o mn mx acc =
      if max acc.1 (axisEntryTime d o mn mx) > min acc.2 (axisExitTime d o mn mx) then none
      else some (max acc.1 (axisEntryTime d o mn mx), min acc.2 (axisExitTime d o mn mx)) := by
  simp only [slabAxis, axisEntryTime, axisExitTime, mul_one_div]
  rw [if_neg hpar]

/-- `slabAxis` keeps the accumulator interval inside `[0, 1]` and ordered. -/
theorem slabAxis_inv {d o mn mx : ℚ} {acc acc' : ℚ × ℚ}
    (h : slabAxis d o mn mx acc = some acc')
    (h0 : 0 ≤ acc.1) (h1 : acc.2 ≤ 1) (h2 : acc.1 ≤ acc.2) :
    0 ≤ acc'.1 ∧ acc'.2 ≤ 1 ∧ acc'.1 ≤ acc'.2 := by
  simp only [slabAxis] at h
  split_ifs at h with hpar hout hemp
  · cases Option.some.inj h
    exact ⟨h0, h1, h2⟩
  · cases Option.some.inj h
    exact ⟨le_trans h0 (le_max_left _ _), le_trans (min_le_left _ _) h1, not_lt.mp hemp⟩

/-- Unfolding of the slab loop at the empty axis list. -/
theorem slabChain_nil (acc : ℚ × ℚ) : slabChain [] acc = some acc := rfl

/-- Unfolding of the slab loop at one more axis. -/
theorem slabChain_cons (a : AxisData) (rest : List AxisData) (acc : ℚ × ℚ) :
    slabChain (a :: rest) acc =
      match slabAxis a.1 a.2.1 a.2.2.1 a.2.2.2 acc with
      | none => none
      | some acc' => slabChain rest acc' := rfl

/-- The slab loop over a list of axes keeps the accumulator interval inside
`[0, 1]` and ordered. -/
theorem slabChain_inv (axes : List AxisData) :
    ∀ (acc acc' : ℚ × ℚ), slabChain axes acc = some acc' →
      0 ≤ acc.1 → acc.2 ≤ 1 → acc.1 ≤ acc.2 →
      0 ≤ acc'.1 ∧ acc'.2 ≤ 1 ∧ acc'.1 ≤ acc'.2 := by
  induction axes with
  | nil =>
    intro acc acc' h h0 h1 h2
    rw [slabChain_nil] at h
    cases Option.some.inj h
    exact ⟨h0, h1, h2⟩
  | cons a rest ih =>
    intro acc acc' h h0 h1 h2
    rw [slabChain_cons] at h
    cases hax : slabAxis a.1 a.2.1 a.2.2.1 a.2.2.2 acc with
    | none => rw [hax] at h; cases h
    | some acc1 =>
      rw [hax] at h
      obtain ⟨j0, j1, j2⟩ := slabAxis_inv hax h0 h1 h2
      exact ih acc1 acc' h j0 j1 j2

/-- The entry-time fold only increases its seed. -/
theorem le_slabEntryFold (axes : List AxisData) : ∀ t0 : ℚ, t0 ≤ slabEntryFold axes t0 := by
  induction axes with
  | nil => intro t0; exact le_refl t0
  | cons a rest ih =>
    intro t0
    simp only [slabEntryFold, List.foldl_cons]
    refine le_trans ?_ (ih _)
    split_ifs
    · exact le_refl t0
    · exact le_max_left _ _

/-- The exit-time fold only decreases its seed. -/
theorem slabExitFold_le (axes : List AxisData) : ∀ t0 : ℚ, slabExitFold axes t0 ≤ t0 := by
  induction axes with
  | nil => intro t0; exact le_refl t0
  | cons a rest ih =>
    intro t0
    simp only [slabExitFold, List.foldl_cons]
    refine le_trans (ih _) ?_
    split_ifs
    · exact le_refl t0
    · exact min_le_left _ _

/-- The incremental slab loop equals the spec's two folds: when every
parallel axis has its origin inside its slab, the loop returns the clamped
entry/exit pair exactly when the folded interval is non-empty. -/
theorem slabChain_eq (axes : List AxisData) :
    ∀ acc : ℚ × ℚ,
      (∀ a ∈ axes, |a.1| < SLAB_EPSILON → a.2.2.1 ≤ a.2.1 ∧ a.2.1 ≤ a.2.2.2) →
      acc.1 ≤ acc.2 →
      slabChain axes acc =
        if slabEntryFold axes acc.1 ≤ slabExitFold axes acc.2 then
          some (slabEntryFold axes acc.1, slabExitFold axes acc.2)
        else none := by
  induction axes with
  | nil =>
    intro acc hin hwf
    rw [slabChain_nil]
    simp only [slabEntryFold, slabExitFold, List.foldl_nil]
    rw [if_pos hwf]
  | cons a rest ih =>
    intro acc hin hwf
    have hinr : ∀ b ∈ rest, |b.1| < SLAB_EPSILON → b.2.2.1 ≤ b.2.1 ∧ b.2.1 ≤ b.2.2.2 :=
      fun b hb => hin b (List.mem_cons_of_mem a hb)
    rw [slabChain_cons]
    simp only [slabEntryFold, slabExitFold, List.foldl_cons]
    by_cases hpar : |a.1| < SLAB_EPSILON
    · obtain ⟨h1, h2⟩ := hin a (List.mem_cons_self a rest) hpar
      rw [slabAxis_par acc hpar h1 h2, if_pos hpar, if_pos hpar]
      simpa only [slabEntryFold, slabExitFold] using ih acc hinr hwf
    · rw [slabAxis_nonpar acc hpar, if_neg hpar, if_neg hpar]
      by_cases hemp : max acc.1 (axisEntryTime a.1 a.2.1 a.2.2.1 a.2.2.2) >
          min acc.2 (axisExitTime a.1 a.2.1 a.2.2.1 a.2.2.2)
      · rw [if_pos hemp]
        have hE := le_slabEntryFold rest (max acc.1 (axisEntryTime a.1 a.2.1 a.2.2.1 a.2.2.2))
        have hX := slabExitFold_le rest (min acc.2 (axisExitTime a.1 a.2.1 a.2.2.1 a.2.2.2))
        rw [if_neg (by simp only [slabEntryFold, slabExitFold] at hE hX ⊢; linarith)]
      · rw [if_neg hemp]
        simpa only [slabEntryFold, slabExitFold] using
          ih (max acc.1 (axisEntryTime a.1 a.2.1 a.2.2.1 a.2.2.2),
              min acc.2 (axisExitTime a.1 a.2.1 a.2.2.1 a.2.2.2)) hinr (not_lt.mp hemp)

/-- In the non-degenerate case, `checkRayAABBIntersection` is the slab loop
over the three axes followed by the final `tmin <= 1 && tmax >= 0 &&
tmin >= 0` guard. -/
theorem checkRay_chainForm (o d : Vec3) (box : AABB) (hdeg : ¬d.magnitudeSq < 1/100000) :
    checkRayAABBIntersection o d box =
      match slabChain (axesOf o d box) (0, 1) with
      | none => none
      | some acc => if acc.1 ≤ 1 ∧ acc.2 ≥ 0 ∧ acc.1 ≥ 0 then some acc.1 else none := by
  unfold checkRayAABBIntersection
  rw [if_neg hdeg]
  simp only [axesOf, slabChain_cons, slabChain_nil]
  cases h1 : slabAxis d.x o.x box.min.x box.max.x (0, 1) with
  | none => simp [h1]
  | some acc1 =>
    cases h2 : slabAxis d.y o.y box.min.y box.max.y acc1 with
    | none => simp [h1, h2]
    | some acc2 =>
      cases h3 : slabAxis d.z o.z box.min.z box.max.z acc2 with
      | none => simp [h1, h2, h3]
      | some acc3 => simp [h1, h2, h3]

/-- Any fraction returned by `checkRayAABBIntersection` lies in `[0, 1]`. -/
theorem checkRayAABBIntersection_range (o d : Vec3) (box : AABB) (t : ℚ)
    (h : checkRayAABBIntersection o d box = some t) : 0 ≤ t ∧ t ≤ 1 := by
  by_cases hdeg : d.magnitudeSq < 1/100000
  · unfold checkRayAABBIntersection at h
    rw [if_pos hdeg] at h
    split_ifs at h
    · cases Option.some.inj h
      exact ⟨le_refl _, by norm_num⟩
  · rw [checkRay_chainForm o d box hdeg] at h
    cases hc : slabChain (axesOf o d box) (0, 1) with
    | none => rw [hc] at h; cases h
    | some acc =>
      rw [hc] at h
      obtain ⟨j0, j1, j2⟩ := slabChain_inv (axesOf o d box) (0, 1) acc hc
        (by norm_num) (by norm_num) (by norm_num)
      simp only at h
      split_ifs at h
      cases Option.some.inj h
      exact ⟨j0, le_trans j2 j1⟩

/-- C2: `checkRayAABBIntersection` returns only fractions in `[0, 1]`; a
near-zero-length direction degenerates to the point-vs-AABB overlap check
returning `0` on overlap and none otherwise; a near-parallel axis whose
origin lies outside its slab forces a miss; and when every near-parallel
axis has its origin inside its slab, the result is exactly the spec's slab
test `slabSpecEntry` — the last entering axis's entry fraction, none exactly
when the entry/exit interval (clipped to the segment `[0, 1]`) is empty. -/
theorem rayAABB_slab_characterisation (o d : Vec3) (box : AABB) :
    (∀ t, checkRayAABBIntersection o d box = some t → 0 ≤ t ∧ t ≤ 1) ∧
    (d.magnitudeSq < 1/100000 →
      checkRayAABBIntersection o d box =
        if checkAABBOverlap ⟨o, o⟩ box then some 0 else none) ∧
    (¬d.magnitudeSq < 1/100000 →
      ((|d.x| < SLAB_EPSILON ∧ (o.x < box.min.x ∨ o.x > box.max.x)) ∨
       (|d.y| < SLAB_EPSILON ∧ (o.y < box.min.y ∨ o.y > box.max.y)) ∨
       (|d.z| < SLAB_EPSILON ∧ (o.z < box.min.z ∨ o.z > box.max.z))) →
      checkRayAABBIntersection o d box = none) ∧
    (¬d.magnitudeSq < 1/100000 →
      (|d.x| < SLAB_EPSILON → box.min.x ≤ o.x ∧ o.x ≤ box.max.x) →
      (|d.y| < SLAB_EPSILON → box.min.y ≤ o.y ∧ o.y ≤ box.max.y) →
      (|d.z| < SLAB_EPSILON → box.min.z ≤ o.z ∧ o.z ≤ box.max.z) →
      checkRayAABBIntersection o d box = slabSpecEntry o d box) := by
  refine ⟨fun t h => checkRayAABBIntersection_range o d box t h, ?_, ?_, ?_⟩
  · intro hdeg
    unfold checkRayAABBIntersection
    rw [if_pos hdeg]
  · intro hdeg hout
    rw [checkRay_chainForm o d box hdeg]
    simp only [axesOf, slabChain_cons, slabChain_nil]
    rcases hout with ⟨hp, ho⟩ | ⟨hp, ho⟩ | ⟨hp, ho⟩
    · rw [slabAxis_par_outside (0, 1) hp ho]
    · cases h1 : slabAxis d.x o.x box.min.x box.max.x (0, 1) with
      | none => simp [h1]
      | some acc1 => simp [h1, slabAxis_par_outside acc1 hp ho]
    · cases h1 : slabAxis d.x o.x box.min.x box.max.x (0, 1) with
      | none => simp [h1]
      | some acc1 =>
        cases h2 : slabAxis d.y o.y box.min.y box.max.y acc1 with
        | none => simp [h1, h2]
        | some acc2 => simp [h1, h2, slabAxis_par_outside acc2 hp ho]
  · intro hdeg hx hy hz
    rw [checkRay_chainForm o d box hdeg]
    have hin : ∀ a ∈ axesOf o d box,
        |a.1| < SLAB_EPSILON → a.2.2.1 ≤ a.2.1 ∧ a.2.1 ≤ a.2.2.2 := by
      intro a ha
      simp only [axesOf, List.mem_cons, List.not_mem_nil, or_false] at ha
      rcases ha with rfl | rfl | rfl
      · exact hx
      · exact hy
      · exact hz
    rw [slabChain_eq (axesOf o d box) (0, 1) hin (by norm_num)]
    simp only [slabSpecEntry]
    have hE0 : (0 : ℚ) ≤ slabEntryFold (axesOf o d box) 0 := le_slabEntryFold _ 0
    have hX1 : slabExitFold (axesOf o d box) 1 ≤ 1 := slabExitFold_le _ 1
    by_cases hEX : slabEntryFold (axesOf o d box) 0 ≤ slabExitFold (axesOf o d box) 1
    · rw [if_pos hEX]
      simp only
      rw [if_pos ⟨le_trans hEX hX1, le_trans hE0 hEX, hE0⟩, if_pos hEX]
    · rw [if_neg hEX, if_neg hEX]

/-- Witness for C2: the scenario ray from `(0,1,0)` along `(10,0,0)` against
the box `[4,6] x [1,3] x [-1,1]` is non-degenerate with both parallel axes
inside their slabs, so the source function and the spec's slab test agree on
it. -/
theorem rayAABB_slab_characterisation_witness :
    checkRayAABBIntersection ⟨0, 1, 0⟩ ⟨10, 0, 0⟩ ⟨⟨4, 1, -1⟩, ⟨6, 3, 1⟩⟩ =
      slabSpecEntry ⟨0, 1, 0⟩ ⟨10, 0, 0⟩ ⟨⟨4, 1, -1⟩, ⟨6, 3, 1⟩⟩ :=
  (rayAABB_slab_characterisation ⟨0, 1, 0⟩ ⟨10, 0, 0⟩ ⟨⟨4, 1, -1⟩, ⟨6, 3, 1⟩⟩).2.2.2
    (by norm_num [Vec3.magnitudeSq])
    (fun h => absurd h (by norm_num [SLAB_EPSILON]))
    (fun _ => by norm_num)
    (fun _ => by norm_num)

/-- The obstacle scan only accumulates fractions in `[0, 1]`. -/
theorem staticScan_go (prev delta : Vec3) (obstacles : List Obstacle) :
    ∀ acc : Option (Obstacle × ℚ),
      (∀ r, acc = some r → 0 ≤ r.2 ∧ r.2 ≤ 1) →
      ∀ r, obstacles.foldl (staticScanStep prev delta) acc = some r →
        0 ≤ r.2 ∧ r.2 ≤ 1 := by
  induction obstacles with
  | nil =>
    intro acc hacc r h
    simp only [List.foldl_nil] at h
    exact hacc r h
  | cons ob rest ih =>
    intro acc hacc r h
    simp only [List.foldl_cons] at h
    refine ih _ ?_ r h
    intro r' hstep
    unfold staticScanStep at hstep
    cases hray : checkRayAABBIntersection prev delta (obstacleAABB ob) with
    | none => rw [hray] at hstep; exact hacc r' hstep
    | some tHit =>
      rw [hray] at hstep
      dsimp only at hstep
      split_ifs at hstep
      · cases Option.some.inj hstep
        exact checkRayAABBIntersection_range prev delta (obstacleAABB ob) tHit hray
      · exact hacc r' hstep

/-- Any obstacle hit returned by the swept obstacle test has its fraction in
`[0, 1]`. -/
theorem checkStaticRaycast_range (prev delta : Vec3) (obstacles : List Obstacle)
    (o : Obstacle) (t : ℚ)
    (h : checkProjectileHitStaticObstacleRaycast prev delta obstacles = some (o, t)) :
    0 ≤ t ∧ t ≤ 1 := by
  unfold checkProjectileHitStaticObstacleRaycast at h
  split_ifs at h
  exact staticScan_go prev delta obstacles none (by simp) (o, t) h

/-- The hitbox scan only accumulates fractions in `[0, 1]`. -/
theorem hitboxScan_go (prev delta : Vec3) (idx : ℕ) (boxes : List (String × AABB)) :
    ∀ acc : Option (ℕ × String × ℚ),
      (∀ r, acc = some r → 0 ≤ r.2.2 ∧ r.2.2 ≤ 1) →
      ∀ r, boxes.foldl (hitboxScanStep prev delta idx) acc = some r →
        0 ≤ r.2.2 ∧ r.2.2 ≤ 1 := by
  induction boxes with
  | nil =>
    intro acc hacc r h
    simp only [List.foldl_nil] at h
    exact hacc r h
  | cons kb rest ih =>
    intro acc hacc r h
    simp only [List.foldl_cons] at h
    refine ih _ ?_ r h
    intro r' hstep
    unfold hitboxScanStep at hstep
    cases hray : checkRayAABBIntersection prev delta kb.2 with
    | none => rw [hray] at hstep; exact hacc r' hstep
    | some tHit =>
      rw [hray] at hstep
      dsimp only at hstep
      split_ifs at hstep
      · cases Option.some.inj hstep
        exact checkRayAABBIntersection_range prev delta kb.2 tHit hray
      · exact hacc r' hstep

/-- The target scan only accumulates fractions in `[0, 1]`. -/
theorem targetScan_go (ownerId : String) (prev delta : Vec3)
    (targets : List (ℕ × WorldPlayer)) :
    ∀ acc : Option (ℕ × String × ℚ),
      (∀ r, acc = some r → 0 ≤ r.2.2 ∧ r.2.2 ≤ 1) →
      ∀ r, targets.foldl (targetScanStep ownerId prev delta) acc = some r →
        0 ≤ r.2.2 ∧ r.2.2 ≤ 1 := by
  induction targets with
  | nil =>
    intro acc hacc r h
    simp only [List.foldl_nil] at h
    exact hacc r h
  | cons pair rest ih =>
    intro acc hacc r h
    simp only [List.foldl_cons] at h
    refine ih _ ?_ r h
    intro r' hstep
    simp only [targetScanStep] at hstep
    split_ifs at hstep
    · exact hacc r' hstep
    · exact hitboxScan_go prev delta pair.1 (calculateHitboxes pair.2.position) acc hacc r' hstep

/-- Any player hit returned by the swept entity test has its fraction in
`[0, 1]`. -/
theorem checkHitRaycast_range (ownerId : String) (mark : Bool) (prev delta : Vec3)
    (targets : List WorldPlayer) (r : ℕ × String × ℚ)
    (h : checkProjectileHitRaycast ownerId mark prev delta targets = some r) :
    0 ≤ r.2.2 ∧ r.2.2 ≤ 1 := by
  unfold checkProjectileHitRaycast at h
  split_ifs at h
  exact targetScan_go ownerId prev delta targets.enum none (by simp) r h

/-- The chosen `selectFinalHit` impact fraction lies in `[0, 1]`. -/
theorem selectFinalHit_range (ownerId : String) (mark : Bool) (prev delta : Vec3)
    (obstacles : List Obstacle) (targets : List WorldPlayer) (hit : FinalHit)
    (hsel : selectFinalHit
        (checkProjectileHitStaticObstacleRaycast prev delta obstacles)
        (checkProjectileHitRaycast ownerId mark prev delta targets) = some hit) :
    0 ≤ hit.t ∧ hit.t ≤ 1 := by
  cases hhs : checkProjectileHitStaticObstacleRaycast prev delta obstacles with
  | none =>
    cases hhp : checkProjectileHitRaycast ownerId mark prev delta targets with
    | none => rw [hhs, hhp] at hsel; cases hsel
    | some r =>
      rw [hhs, hhp] at hsel
      obtain ⟨idx, key, tP⟩ := r
      simp only [selectFinalHit] at hsel
      cases Option.some.inj hsel
      exact checkHitRaycast_range ownerId mark prev delta targets (idx, key, tP) hhp
  | some sPair =>
    obtain ⟨obstacle, tS⟩ := sPair
    cases hhp : checkProjectileHitRaycast ownerId mark prev delta targets with
    | none =>
      rw [hhs, hhp] at hsel
      simp only [selectFinalHit] at hsel
      cases Option.some.inj hsel
      exact checkStaticRaycast_range prev delta obstacles obstacle tS hhs
    | some r =>
      obtain ⟨idx, key, tP⟩ := r
      rw [hhs, hhp] at hsel
      simp only [selectFinalHit] at hsel
      split_ifs at hsel
      · cases Option.some.inj hsel
        exact checkStaticRaycast_range prev delta obstacles obstacle tS hhs
      · cases Option.some.inj hsel
        exact checkHitRaycast_range ownerId mark prev delta targets (idx, key, tP) hhp

/-- C1: in a `MovementSystem.update` tick of a live projectile whose swept
segment produces a chosen hit, the tie policy selects the obstacle when
`t_obs <= t_player` and the player otherwise; the projectile's final position
is exactly `previousPosition + deltaPosition * t`, its velocity is zeroed and
its removal flag set; an obstacle hit damages no player while a player hit
applies the projectile's damage through `takeDamage` with the struck hitbox
region's multiplier. -/
theorem projectile_impact_resolution
    (mapBounds : AABB) (obstacles : List Obstacle) (dt : ℚ)
    (proj : ProjectileEnt) (players : List WorldPlayer)
    (v0 delta : Vec3) (hit : FinalHit)
    (hv0 : v0 = (if proj.ignoreGravity then proj.velocity
                 else { proj.velocity with y := proj.velocity.y - GRAVITY * dt }))
    (hdelta : delta = v0.smul dt)
    (hlive : proj.markForRemoval = false)
    (hsel : selectFinalHit
        (checkProjectileHitStaticObstacleRaycast proj.position delta obstacles)
        (checkProjectileHitRaycast proj.ownerId proj.markForRemoval proj.position delta
          players) = some hit) :
    (∀ obstacle tS idx key tP,
      checkProjectileHitStaticObstacleRaycast proj.position delta obstacles
        = some (obstacle, tS) →
      checkProjectileHitRaycast proj.ownerId proj.markForRemoval proj.position delta players
        = some (idx, key, tP) →
      hit = if tS ≤ tP then FinalHit.staticHit obstacle tS
            else FinalHit.playerHit idx key tP) ∧
    (movementTickProjectile mapBounds obstacles dt proj players).1.position
      = proj.position.add (delta.smul hit.t) ∧
    (movementTickProjectile mapBounds obstacles dt proj players).1.velocity = Vec3.zero ∧
    (movementTickProjectile mapBounds obstacles dt proj players).1.markForRemoval = true ∧
    (∀ obstacle tS, hit = FinalHit.staticHit obstacle tS →
      (movementTickProjectile mapBounds obstacles dt proj players).2 = players) ∧
    (∀ idx key tP, hit = FinalHit.playerHit idx key tP →
      (movementTickProjectile mapBounds obstacles dt proj players).2 =
        (match players.get? idx with
         | some target => players.set idx (worldTakeDamage target proj.damage key)
         | none => players)) := by
  obtain ⟨ht0, ht1⟩ := selectFinalHit_range proj.ownerId proj.markForRemoval proj.position
    delta obstacles players hit hsel
  have htie : ∀ obstacle tS idx key tP,
      checkProjectileHitStaticObstacleRaycast proj.position delta obstacles
        = some (obstacle, tS) →
      checkProjectileHitRaycast proj.ownerId proj.markForRemoval proj.position delta players
        = some (idx, key, tP) →
      hit = if tS ≤ tP then FinalHit.staticHit obstacle tS
            else FinalHit.playerHit idx key tP := by
    intro obstacle tS idx key tP hhs hhp
    rw [hhs, hhp] at hsel
    simp only [selectFinalHit] at hsel
    split_ifs at hsel with hc
    · rw [if_pos hc]
      exact (Option.some.inj hsel).symm
    · rw [if_neg hc]
      exact (Option.some.inj hsel).symm
  cases hit with
  | staticHit obstacle tS =>
    simp only [FinalHit.t] at ht0 ht1
    have hmain : movementTickProjectile mapBounds obstacles dt proj players =
        ({ proj with position := proj.position.add (delta.smul tS),
                     velocity := Vec3.zero, markForRemoval := true }, players) := by
      simp only [movementTickProjectile]
      rw [← hv0, ← hdelta]
      simp only [hlive] at hsel ⊢
      simp only [Bool.false_eq_true, if_false, hsel, FinalHit.t]
      rw [if_pos (⟨ht0, ht1⟩ : (0 : ℚ) ≤ tS ∧ tS ≤ 1)]
      simp [Vec3.zero]
    refine ⟨htie, ?_, by rw [hmain], by rw [hmain], ?_, ?_⟩
    · rw [hmain]
      simp [FinalHit.t]
    · intro obstacle' tS' hhit
      rw [hmain]
    · intro idx' key' tP' hhit
      simp at hhit
  | playerHit idx key tP =>
    simp only [FinalHit.t] at ht0 ht1
    have hmain : movementTickProjectile mapBounds obstacles dt proj players =
        ({ proj with position := proj.position.add (delta.smul tP),
                     velocity := Vec3.zero, markForRemoval := true },
         match players.get? idx with
         | some target => players.set idx (worldTakeDamage target proj.damage key)
         | none => players) := by
      simp only [movementTickProjectile]
      rw [← hv0, ← hdelta]
      simp only [hlive] at hsel ⊢
      simp only [Bool.false_eq_true, if_false, hsel, FinalHit.t]
      rw [if_pos (⟨ht0, ht1⟩ : (0 : ℚ) ≤ tP ∧ tP ≤ 1)]
      simp [Vec3.zero]
    refine ⟨htie, ?_, by rw [hmain], by rw [hmain], ?_, ?_⟩
    · rw [hmain]
      simp [FinalHit.t]
    · intro obstacle' tS' hhit
      simp at hhit
    · intro idx' key' tP' hhit
      injection hhit with h1 h2 h3
      subst h1
      subst h2
      rw [hmain]

/-- Witness for C1 — the projectile-vs-wall scenario: a projectile moving
from `(0,1,0)` toward `(10,1,0)` in one tick against an obstacle box at
`(5,1,0)` of size `(2,2,2)` stops at `t = 0.4`, at impact point `(4,1,0)`,
with removal flagged and velocity zeroed. -/
theorem projectile_impact_resolution_witness :
    (movementTickProjectile ⟨⟨-50, 0, -50⟩, ⟨50, 50, 50⟩⟩ [⟨⟨5, 1, 0⟩, ⟨2, 2, 2⟩, "box"⟩] 1
        ⟨"p1", ⟨0, 1, 0⟩, ⟨10, 20, 0⟩, 15, 1/10, 1/10, 1/10, false, false⟩ []).1.position
      = ⟨4, 1, 0⟩ ∧
    (movementTickProjectile ⟨⟨-50, 0, -50⟩, ⟨50, 50, 50⟩⟩ [⟨⟨5, 1, 0⟩, ⟨2, 2, 2⟩, "box"⟩] 1
        ⟨"p1", ⟨0, 1, 0⟩, ⟨10, 20, 0⟩, 15, 1/10, 1/10, 1/10, false, false⟩ []).1.velocity
      = Vec3.zero ∧
    (movementTickProjectile ⟨⟨-50, 0, -50⟩, ⟨50, 50, 50⟩⟩ [⟨⟨5, 1, 0⟩, ⟨2, 2, 2⟩, "box"⟩] 1
        ⟨"p1", ⟨0, 1, 0⟩, ⟨10, 20, 0⟩, 15, 1/10, 1/10, 1/10, false, false⟩
        []).1.markForRemoval = true := by
  have hsel : selectFinalHit
      (checkProjectileHitStaticObstacleRaycast (⟨0, 1, 0⟩ : Vec3) ⟨10, 0, 0⟩
        [⟨⟨5, 1, 0⟩, ⟨2, 2, 2⟩, "box"⟩])
      (checkProjectileHitRaycast "p1" false ⟨0, 1, 0⟩ ⟨10, 0, 0⟩ [])
      = some (FinalHit.staticHit ⟨⟨5, 1, 0⟩, ⟨2, 2, 2⟩, "box"⟩ (2/5)) := by
    norm_num [checkProjectileHitStaticObstacleRaycast, checkProjectileHitRaycast,
      staticScanStep, checkRayAABBIntersection, slabAxis, checkAABBOverlap, obstacleAABB,
      Vec3.add, Vec3.magnitudeSq, SLAB_EPSILON, selectFinalHit, List.enum]
  have H := projectile_impact_resolution ⟨⟨-50, 0, -50⟩, ⟨50, 50, 50⟩⟩
    [⟨⟨5, 1, 0⟩, ⟨2, 2, 2⟩, "box"⟩] 1
    ⟨"p1", ⟨0, 1, 0⟩, ⟨10, 20, 0⟩, 15, 1/10, 1/10, 1/10, false, false⟩ []
    ⟨10, 0, 0⟩ ⟨10, 0, 0⟩ (FinalHit.staticHit ⟨⟨5, 1, 0⟩, ⟨2, 2, 2⟩, "box"⟩ (2/5))
    (by norm_num [GRAVITY]) (by norm_num [Vec3.smul]) rfl hsel
  refine ⟨?_, H.2.2.1, H.2.2.2.1⟩
  rw [H.2.1]
  norm_num [Vec3.add, Vec3.smul, FinalHit.t]

end FpsCore
